import Mathlib

/-!
# sale-data: the CSV loader and the refresh protocol

A shallow embedding of `dbload/svc/csv-loader.go` (`LoadCSVData`, `RefreshData`)
and of the record type of `dbload/datamodel/db-model.go`.

The Go program talks to three collaborators that are not part of the repository.
They are modelled here from their documented behaviour:

* `time.Parse`, `strconv.ParseFloat`, `strconv.Atoi` (section "Go standard library");
* the file system and `encoding/csv`: a source file is either not openable, not
  readable, or yields a list of records (`CsvFile`);
* the relational store behind `database/sql`: four tables, transactions, the
  statements the loader issues, and a script that says which of the coming
  calls fail (`DB`).

Log output (`log.Printf`) is not part of the modelled state.

The theorems that quantify over all rows use the three parsers only through their result
(a value or an error); the details of the parser models matter at the concrete rows only.
-/

namespace SaleData

set_option maxRecDepth 100000

/-! ## Go standard library -/

/-- The calendar date carried by the `time.Time` that `time.Parse("2006-01-02", s)` returns. -/
structure Date where
  year : Nat
  month : Nat
  day : Nat
deriving DecidableEq, Repr

/-- The number a successful `strconv.ParseFloat(s, 64)` denotes, before it is rounded to the
nearest binary64: `dec neg m e` is `± m * 10 ^ e`, `hex neg m e` is `± m * 2 ^ e`
(these are the sign, mantissa and exponent `readFloat` computes, with the mantissa kept in
full), `inf` and `nan` are the special values. -/
inductive Float64 where
  | dec (neg : Bool) (mant : Nat) (exp : Int)
  | hex (neg : Bool) (mant : Nat) (exp : Int)
  | inf (neg : Bool)
  | nan
deriving DecidableEq, Repr

/-- Whether the parsed number is a negative number (not a zero, not NaN). -/
def Float64.isNegative : Float64 → Bool
  | .dec neg m _ => neg && decide (m ≠ 0)
  | .hex neg m _ => neg && decide (m ≠ 0)
  | .inf neg => neg
  | .nan => false

/-- Value of a decimal digit character. -/
def digitVal (c : Char) : Nat := c.toNat - '0'.toNat

/-- Go: `'0' <= c && c <= '9'`. -/
def isDigit (c : Char) : Bool := decide ('0'.toNat ≤ c.toNat) && decide (c.toNat ≤ '9'.toNat)

/-- Go `lower(c)` of strconv, `c | ('x' - 'X')`, as a character code. -/
def lower (c : Char) : Nat := c.toNat ||| 32

/-- Go: `'a' <= lower(c) && lower(c) <= 'f'`. -/
def isHexLetter (c : Char) : Bool :=
  decide ('a'.toNat ≤ lower c) && decide (lower c ≤ 'f'.toNat)

/-- Value of a decimal number written with the given digit characters. -/
def digitsVal (ds : List Char) : Nat := ds.foldl (fun n c => n * 10 + digitVal c) 0

/-- Go `daysIn(month, year)` of package time. -/
def daysIn (month year : Nat) : Nat :=
  if month = 2 then
    if year % 4 = 0 ∧ (year % 100 ≠ 0 ∨ year % 400 = 0) then 29 else 28
  else if month = 4 ∨ month = 6 ∨ month = 9 ∨ month = 11 then 30
  else 31

/-- Go `time.Parse("2006-01-02", s)`: four digits, `-`, two digits, `-`, two digits and
nothing else; the month must be 1..12 and the day must exist in that month.
`none` stands for a non-nil error. -/
def timeParse (s : String) : Option Date :=
  match s.toList with
  | [y1, y2, y3, y4, '-', m1, m2, '-', d1, d2] =>
    if isDigit y1 && isDigit y2 && isDigit y3 && isDigit y4
        && isDigit m1 && isDigit m2 && isDigit d1 && isDigit d2 then
      let year := digitsVal [y1, y2, y3, y4]
      let month := digitsVal [m1, m2]
      let day := digitsVal [d1, d2]
      if month = 0 ∨ 12 < month then none
      else if day < 1 ∨ daysIn month year < day then none
      else some ⟨year, month, day⟩
    else none
  | _ => none

/-- Go `strconv.Atoi(s)` on a 64-bit platform: an optional sign followed by one or more
decimal digits, the value within the range of `int`. `none` stands for a non-nil error. -/
def atoi (s : String) : Option Int :=
  let body (neg : Bool) (ds : List Char) : Option Int :=
    if ds.isEmpty || !ds.all isDigit then none
    else
      let n := digitsVal ds
      if neg then (if n ≤ 2 ^ 63 then some (-(n : Int)) else none)
      else (if n < 2 ^ 63 then some (n : Int) else none)
  match s.toList with
  | '-' :: ds => body true ds
  | '+' :: ds => body false ds
  | ds => body false ds

/-- State of the digit loop of Go `readFloat`: whether a dot and a digit were seen, the number
of mantissa digits `nd`, the position of the decimal point `dp`, and the mantissa. -/
structure Mantissa where
  sawdot : Bool
  sawdigits : Bool
  nd : Nat
  dp : Int
  mant : Nat
deriving DecidableEq, Repr

/-- The digit loop of Go `readFloat`: consumes underscores, the first dot, digits (leading
zeros do not count as mantissa digits) and, in base 16, hex letters; stops at anything else.
Returns the final state and the unread rest. -/
def readMantissa (base : Nat) : List Char → Mantissa → Mantissa × List Char
  | [], st => (st, [])
  | c :: cs, st =>
    if c = '_' then readMantissa base cs st
    else if c = '.' then
      if st.sawdot then (st, c :: cs)
      else readMantissa base cs { st with sawdot := true, dp := st.nd }
    else if isDigit c then
      if c = '0' ∧ st.nd = 0 then
        readMantissa base cs { st with sawdigits := true, dp := st.dp - 1 }
      else
        readMantissa base cs
          { st with sawdigits := true, nd := st.nd + 1, mant := st.mant * base + digitVal c }
    else if base = 16 ∧ isHexLetter c then
      readMantissa base cs
        { st with sawdigits := true, nd := st.nd + 1,
                  mant := st.mant * 16 + (lower c - 'a'.toNat + 10) }
    else (st, c :: cs)

/-- The exponent digit loop of Go `readFloat`: digits and underscores; the exponent stops
growing once it has reached 10000. -/
def readExpDigits : List Char → Nat → Nat × List Char
  | [], e => (e, [])
  | c :: cs, e =>
    if c = '_' then readExpDigits cs e
    else if isDigit c then readExpDigits cs (if e < 10000 then e * 10 + digitVal c else e)
    else (e, c :: cs)

/-- What Go `readFloat` reads after the exponent character: an optional sign and at least one
digit. `none` when that is missing. -/
def readExponent : List Char → Option (Int × List Char)
  | [] => none
  | c :: cs =>
    let signed : Int × List Char :=
      if c = '+' then (1, cs) else if c = '-' then (-1, cs) else (1, c :: cs)
    match signed.2 with
    | [] => none
    | d :: _ =>
      if isDigit d then
        let r := readExpDigits signed.2 0
        some ((r.1 : Int) * signed.1, r.2)
      else none

/-- What the loop of Go `underscoreOK` saw last. -/
inductive Saw where
  | start
  | digit
  | underscore
  | other
deriving DecidableEq, Repr

/-- The loop of Go `underscoreOK`: an underscore must follow a digit and be followed by one. -/
def underscoreLoop (hex : Bool) : List Char → Saw → Bool
  | [], saw => decide (saw ≠ Saw.underscore)
  | c :: cs, saw =>
    if isDigit c || (hex && isHexLetter c) then underscoreLoop hex cs Saw.digit
    else if c = '_' then
      if saw ≠ Saw.digit then false else underscoreLoop hex cs Saw.underscore
    else if saw = Saw.underscore then false
    else underscoreLoop hex cs Saw.other

/-- Go `underscoreOK(s)`: optional sign, optional base marker `0b`, `0o`, `0x`, then the loop. -/
def underscoreOK (s : List Char) : Bool :=
  let t := match s with
    | '-' :: t => t
    | '+' :: t => t
    | t => t
  match t with
  | '0' :: p :: r =>
    if lower p = 'b'.toNat ∨ lower p = 'o'.toNat ∨ lower p = 'x'.toNat then
      underscoreLoop (decide (lower p = 'x'.toNat)) r Saw.digit
    else underscoreLoop false t Saw.start
  | _ => underscoreLoop false t Saw.start

/-- Go `readFloat(s)` without its final underscore check: sign, optional `0x`, mantissa,
optional exponent (`e` in base 10, a mandatory `p` in base 16).
Returns `(neg, hex, mantissa, exp, rest)`; `none` stands for `ok = false`.
The mantissa is kept in full (Go keeps 19 digits and a truncation flag and re-reads the
digits on the slow path). -/
def readFloat (s : List Char) : Option (Bool × Bool × Nat × Int × List Char) :=
  match s with
  | [] => none
  | c0 :: s1 =>
    let signed : Bool × List Char :=
      if c0 = '+' then (false, s1) else if c0 = '-' then (true, s1) else (false, s)
    let based : Bool × List Char :=
      match signed.2 with
      | '0' :: x :: c :: r => if lower x = 'x'.toNat then (true, c :: r) else (false, signed.2)
      | t => (false, t)
    let hex := based.1
    let m := readMantissa (if hex then 16 else 10) based.2 ⟨false, false, 0, 0, 0⟩
    if !m.1.sawdigits then none
    else
      let dp0 : Int := if m.1.sawdot then m.1.dp else m.1.nd
      let dp : Int := if hex then dp0 * 4 else dp0
      let ndMant : Int := if hex then (m.1.nd : Int) * 4 else m.1.nd
      let finish (dp : Int) (rest : List Char) : Option (Bool × Bool × Nat × Int × List Char) :=
        some (signed.1, hex, m.1.mant, if m.1.mant ≠ 0 then dp - ndMant else 0, rest)
      match m.2 with
      | c :: r =>
        if lower c = (if hex then 'p'.toNat else 'e'.toNat) then
          match readExponent r with
          | none => none
          | some (e, rest) => finish (dp + e) rest
        else if hex then none
        else finish dp (c :: r)
      | [] => if hex then none else finish dp []

/-- Go `commonPrefixLenIgnoreCase(s, pat)`: ASCII upper-case letters of `s` match the
lower-case letters of `pat`. -/
def commonPrefixLenIgnoreCase : List Char → List Char → Nat
  | c :: s, p :: ps =>
    let lc : Nat := if 'A'.toNat ≤ c.toNat ∧ c.toNat ≤ 'Z'.toNat then c.toNat + 32 else c.toNat
    if lc = p.toNat then 1 + commonPrefixLenIgnoreCase s ps else 0
  | _, _ => 0

/-- Go `special(s)`: the (possibly signed) words `inf` and `infinity` and the word `nan`, in
any case. Returns the value and the number of characters read. -/
def special (s : List Char) : Option (Float64 × Nat) :=
  let infinity (neg : Bool) (nsign : Nat) (t : List Char) : Option (Float64 × Nat) :=
    let n0 := commonPrefixLenIgnoreCase t "infinity".toList
    let n := if 3 < n0 ∧ n0 < 8 then 3 else n0
    if n = 3 ∨ n = 8 then some (Float64.inf neg, nsign + n) else none
  match s with
  | [] => none
  | c :: t =>
    if c = '+' then infinity false 1 t
    else if c = '-' then infinity true 1 t
    else if c = 'i' ∨ c = 'I' then infinity false 0 s
    else if c = 'n' ∨ c = 'N' then
      if commonPrefixLenIgnoreCase s "nan".toList = 3 then some (Float64.nan, 3) else none
    else none

/-- The least magnitude that rounds to a binary64 infinity: the largest finite binary64,
`(2 ^ 53 - 1) * 2 ^ 971`, plus half a unit in the last place, which is
`(2 ^ 54 - 1) * 2 ^ 970` (the power is written as a product of smaller ones). -/
def float64Overflow : Nat := (2 ^ 54 - 1) * (2 ^ 250 * 2 ^ 240 * 2 ^ 240 * 2 ^ 240)

/-- Whether `mant * base ^ exp` is at least `float64Overflow`. -/
def overflows (mant base : Nat) : Int → Bool
  | Int.ofNat e => decide (float64Overflow ≤ mant * base ^ e)
  | Int.negSucc e => decide (float64Overflow * base ^ (e + 1) ≤ mant)

/-- Go `strconv.ParseFloat(s, 64)`: a special value, or a decimal or hexadecimal
floating-point number that spans the whole string, has well-placed underscores and does not
round to an infinity. `none` stands for a non-nil error (syntax or range). -/
def parseFloat (str : String) : Option Float64 :=
  let s := str.toList
  match special s with
  | some (v, n) => if n = s.length then some v else none
  | none =>
    match readFloat s with
    | none => none
    | some (neg, hex, mant, exp, rest) =>
      if rest ≠ [] then none
      else if !underscoreOK s then none
      else if hex then
        if overflows mant 2 exp then none else some (Float64.hex neg mant exp)
      else
        if overflows mant 10 exp then none else some (Float64.dec neg mant exp)

/-! ## Data model -/

/-- Go `datamodel.Record`: the fifteen text fields of one CSV row. -/
structure Record where
  OrderID : String
  ProductID : String
  CustomerID : String
  ProductName : String
  Category : String
  Region : String
  DateOfSale : String
  QuantitySold : String
  UnitPrice : String
  Discount : String
  ShippingCost : String
  PaymentMethod : String
  CustomerName : String
  CustomerEmail : String
  CustomerAddr : String
deriving DecidableEq, Repr

/-- A row of table `customers`, with the columns named in the loader's insert statement. -/
structure Customer where
  customer_id : String
  customer_name : String
  email : String
  address : String
  region : String
deriving DecidableEq, Repr

/-- A row of table `products`. -/
structure Product where
  product_id : String
  product_name : String
  category : String
  unit_price : Float64
deriving DecidableEq, Repr

/-- A row of table `orders`. -/
structure Order where
  order_id : String
  customer_id : String
  order_date : Date
  payment_method : String
  shipping_cost : Float64
  discount : Float64
deriving DecidableEq, Repr

/-- A row of table `order_items`. -/
structure OrderItem where
  order_id : String
  product_id : String
  quantity_sold : Int
  unit_price_at_sale : Float64
  discount_applied : Float64
deriving DecidableEq, Repr

/-- The committed content of the four tables. -/
structure Store where
  customers : List Customer
  products : List Product
  orders : List Order
  orderItems : List OrderItem
deriving DecidableEq, Repr

/-- The store with four empty tables. -/
def Store.empty : Store := ⟨[], [], [], []⟩

/-! ## The relational store behind `database/sql` -/

/-- Effect of `INSERT ... ON CONFLICT (key) DO NOTHING` on one table: the row is appended
unless a row with the same key is already there. -/
def insertIfAbsent {α κ : Type} [DecidableEq κ] (key : α → κ) (x : α) (t : List α) : List α :=
  if t.any (fun y => decide (key y = key x)) then t else t ++ [x]

/-- Key of `order_items`: `(order_id, product_id)`. -/
def OrderItem.key (i : OrderItem) : String × String := (i.order_id, i.product_id)

/-- The statements the program executes. The first four are `insertCustomer`, `insertProduct`,
`insertOrder` and `insertOrderItem` of `LoadCSVData` with their arguments, the last one is
`TRUNCATE TABLE <name> CASCADE` of `RefreshData`. -/
inductive Stmt where
  | insertCustomer (c : Customer)
  | insertProduct (p : Product)
  | insertOrder (o : Order)
  | insertOrderItem (i : OrderItem)
  | truncate (table : String)
deriving DecidableEq, Repr

/-- Modelled from the spec: the schema of the store (section 6: `orders` references
`customers`, `order_items` references `orders` and `products`) is not in the repository.
`TRUNCATE TABLE t CASCADE` empties `t` and every table that references it, directly or not;
`none` for a table the schema does not have. -/
def truncateCascade (table : String) (s : Store) : Option Store :=
  if table = "order_items" then some { s with orderItems := [] }
  else if table = "orders" then some { s with orders := [], orderItems := [] }
  else if table = "products" then some { s with products := [], orderItems := [] }
  else if table = "customers" then some { s with customers := [], orders := [], orderItems := [] }
  else none

/-- Effect of a statement that the store accepts; `none` when the statement itself is wrong. -/
def Stmt.run : Stmt → Store → Option Store
  | .insertCustomer c, s =>
    some { s with customers := insertIfAbsent Customer.customer_id c s.customers }
  | .insertProduct p, s =>
    some { s with products := insertIfAbsent Product.product_id p s.products }
  | .insertOrder o, s =>
    some { s with orders := insertIfAbsent Order.order_id o s.orders }
  | .insertOrderItem i, s =>
    some { s with orderItems := insertIfAbsent OrderItem.key i s.orderItems }
  | .truncate table, s => truncateCascade table s

/-- Go `*sql.DB` as the loader sees it: the committed content of the store, and a script that
gives, for each coming call of `Begin`, `Exec` and `Commit`, the error with which the store
or the connection makes it fail (`none`: the call succeeds). An exhausted script means that
every further call succeeds. -/
structure DB where
  store : Store
  faults : List (Option String)
deriving DecidableEq, Repr

/-- Go `*sql.Tx`: the content of the store as the open transaction sees it. -/
structure Tx where
  work : Store
deriving DecidableEq, Repr

/-- The script's verdict on the next call, and the store with that entry consumed. -/
def DB.next (db : DB) : Option String × DB :=
  match db.faults with
  | [] => (none, db)
  | f :: rest => (f, { db with faults := rest })

/-- Go `db.Begin()`. -/
def DB.Begin (db : DB) : Except String Tx × DB :=
  match db.next with
  | (some e, db1) => (.error e, db1)
  | (none, db1) => (.ok ⟨db1.store⟩, db1)

/-- Go `tx.Exec(stmt, args...)`: on success the statement takes effect inside the
transaction; on failure it has no effect. -/
def Tx.Exec (tx : Tx) (stmt : Stmt) (db : DB) : Except String Tx × DB :=
  match db.next with
  | (some e, db1) => (.error e, db1)
  | (none, db1) =>
    match stmt.run tx.work with
    | some w => (.ok ⟨w⟩, db1)
    | none => (.error "relation does not exist", db1)

/-- Go `tx.Rollback()`: the work of the transaction is dropped. Its result is ignored by every
caller in the program. -/
def Tx.Rollback (_tx : Tx) (db : DB) : DB := db

/-- Go `tx.Commit()`: on success the work of the transaction becomes the content of the
store; a commit that returns an error has committed nothing. -/
def Tx.Commit (tx : Tx) (db : DB) : Option String × DB :=
  match db.next with
  | (some e, db1) => (some e, db1)
  | (none, db1) => (none, { db1 with store := tx.work })

/-- What `os.Open(csvFile)` followed by `csv.NewReader(file).ReadAll()` gives. -/
inductive CsvFile where
  | openFails (err : String)
  | readFails (err : String)
  | records (rs : List (List String))
deriving DecidableEq, Repr

/-- How a call ends: it returns a Go `error` (`none` is `nil`), or it panics. -/
inductive Outcome where
  | returned (err : Option String)
  | panicked
deriving DecidableEq, Repr

/-! ## `LoadCSVData` and `RefreshData` -/

/-- The record literal at the top of the loop body of `LoadCSVData` (`row[0]` .. `row[14]`).
`none`: an index is out of range and the program panics. -/
def mkRecord : List String → Option Record
  | f0 :: f1 :: f2 :: f3 :: f4 :: f5 :: f6 :: f7 :: f8 :: f9 :: f10 :: f11 :: f12 :: f13
      :: f14 :: _ =>
    some {
      OrderID := f0, ProductID := f1, CustomerID := f2, ProductName := f3, Category := f4,
      Region := f5, DateOfSale := f6, QuantitySold := f7, UnitPrice := f8, Discount := f9,
      ShippingCost := f10, PaymentMethod := f11, CustomerName := f12, CustomerEmail := f13,
      CustomerAddr := f14 }
  | _ => none

/-- The values the "Parse / transform" part of the loop body computes. -/
structure Parsed where
  orderDate : Date
  unitPrice : Float64
  shippingCost : Float64
  discount : Float64
  quantitySold : Int
deriving DecidableEq, Repr

/-- The "Parse / transform" part of the loop body: date, unit price, shipping cost, discount
and quantity are parsed in this order; `none` when one of them fails (the body logs and
continues with the next row). -/
def parseRecord (r : Record) : Option Parsed :=
  match timeParse r.DateOfSale with
  | none => none
  | some orderDate =>
    match parseFloat r.UnitPrice with
    | none => none
    | some unitPrice =>
      match parseFloat r.ShippingCost with
      | none => none
      | some shippingCost =>
        match parseFloat r.Discount with
        | none => none
        | some discount =>
          match atoi r.QuantitySold with
          | none => none
          | some quantitySold => some ⟨orderDate, unitPrice, shippingCost, discount, quantitySold⟩

/-- Arguments of `insertCustomer`. -/
def customerOf (r : Record) : Customer :=
  ⟨r.CustomerID, r.CustomerName, r.CustomerEmail, r.CustomerAddr, r.Region⟩

/-- Arguments of `insertProduct`. -/
def productOf (r : Record) (p : Parsed) : Product :=
  ⟨r.ProductID, r.ProductName, r.Category, p.unitPrice⟩

/-- Arguments of `insertOrder`. -/
def orderOf (r : Record) (p : Parsed) : Order :=
  ⟨r.OrderID, r.CustomerID, p.orderDate, r.PaymentMethod, p.shippingCost, p.discount⟩

/-- Arguments of `insertOrderItem`. -/
def orderItemOf (r : Record) (p : Parsed) : OrderItem :=
  ⟨r.OrderID, r.ProductID, p.quantitySold, p.unitPrice, p.discount⟩

/-- The "transaction per row" part of the loop body: begin, the four inserts in the order
customer, product, order, order item, each followed by rollback-and-continue on error,
then commit. Returns the store handle as the next iteration finds it. -/
def insertRow (db : DB) (r : Record) (p : Parsed) : DB :=
  match db.Begin with
  | (.error _, db1) => db1
  | (.ok tx, db1) =>
    match tx.Exec (.insertCustomer (customerOf r)) db1 with
    | (.error _, db2) => tx.Rollback db2
    | (.ok tx1, db2) =>
      match tx1.Exec (.insertProduct (productOf r p)) db2 with
      | (.error _, db3) => tx1.Rollback db3
      | (.ok tx2, db3) =>
        match tx2.Exec (.insertOrder (orderOf r p)) db3 with
        | (.error _, db4) => tx2.Rollback db4
        | (.ok tx3, db4) =>
          match tx3.Exec (.insertOrderItem (orderItemOf r p)) db4 with
          | (.error _, db5) => tx3.Rollback db5
          | (.ok tx4, db5) => (tx4.Commit db5).2

/-- The loop `for i, row := range records` of `LoadCSVData`, from index `i` on. -/
def loadLoop : Nat → List (List String) → DB → Outcome × DB
  | _, [], db => (.returned none, db)
  | i, row :: rest, db =>
    if i = 0 then loadLoop (i + 1) rest db
    else
      match mkRecord row with
      | none => (.panicked, db)
      | some r =>
        match parseRecord r with
        | none => loadLoop (i + 1) rest db
        | some p => loadLoop (i + 1) rest (insertRow db r p)

/-- Go `LoadCSVData(db, csvFile)`. -/
def LoadCSVData (db : DB) (csvFile : CsvFile) : Outcome × DB :=
  match csvFile with
  | .openFails err => (.returned (some ("failed to open file: " ++ err)), db)
  | .readFails err => (.returned (some ("failed to read CSV: " ++ err)), db)
  | .records rs => loadLoop 0 rs db

/-- The table names of `RefreshData`, in its order. -/
def tables : List String := ["order_items", "orders", "products", "customers"]

/-- The truncation loop of `RefreshData` over the remaining table names: on the first failing
statement the transaction is rolled back and the error is returned. -/
def truncateLoop : List String → Tx → DB → Except String Tx × DB
  | [], tx, db => (.ok tx, db)
  | table :: rest, tx, db =>
    match tx.Exec (.truncate table) db with
    | (.error e, db1) =>
      (.error ("failed to truncate table " ++ table ++ ": " ++ e), tx.Rollback db1)
    | (.ok tx1, db1) => truncateLoop rest tx1 db1

/-- Go `RefreshData(db, csvFile)`. -/
def RefreshData (db : DB) (csvFile : CsvFile) : Outcome × DB :=
  match db.Begin with
  | (.error e, db1) => (.returned (some ("begin transaction failed: " ++ e)), db1)
  | (.ok tx, db1) =>
    match truncateLoop tables tx db1 with
    | (.error msg, db2) => (.returned (some msg), db2)
    | (.ok tx1, db2) =>
      match tx1.Commit db2 with
      | (some e, db3) =>
        (.returned (some ("transaction commit failed during truncate: " ++ e)), db3)
      | (none, db3) =>
        match LoadCSVData db3 csvFile with
        | (.panicked, db4) => (.panicked, db4)
        | (.returned (some e), db4) =>
          (.returned (some ("failed to load CSV data: " ++ e)), db4)
        | (.returned none, db4) => (.returned none, db4)

/-! ## Notions used to state the properties -/

/-- Whether one of the next `n` calls of the script fails (calls after a failing one are not
made by a transaction that stops at its first error). -/
def failsWithin : Nat → List (Option String) → Bool
  | 0, _ => false
  | _ + 1, [] => false
  | n + 1, none :: fs => failsWithin n fs
  | _ + 1, some _ :: _ => true

/-- The script left by a transaction of at most `n` calls that stops at its first failing
call. -/
def afterCalls : Nat → List (Option String) → List (Option String)
  | 0, fs => fs
  | _ + 1, [] => []
  | n + 1, none :: fs => afterCalls n fs
  | _ + 1, some _ :: fs => fs

/-- The four inserts of one row applied to a store, each with insert-if-absent on its key. -/
def applyRow (s : Store) (r : Record) (p : Parsed) : Store :=
  { customers := insertIfAbsent Customer.customer_id (customerOf r) s.customers,
    products := insertIfAbsent Product.product_id (productOf r p) s.products,
    orders := insertIfAbsent Order.order_id (orderOf r p) s.orders,
    orderItems := insertIfAbsent OrderItem.key (orderItemOf r p) s.orderItems }

/-- Whether the date, unit price, shipping cost, discount and quantity fields of a row
(fields 7, 9, 11, 10 and 8) all parse. -/
def fieldsParse (row : List String) : Bool :=
  (timeParse (row.getD 6 "")).isSome && (parseFloat (row.getD 8 "")).isSome
    && (parseFloat (row.getD 10 "")).isSome && (parseFloat (row.getD 9 "")).isSome
    && (atoi (row.getD 7 "")).isSome

/-- The data rows that are not skipped, given the script of the store: those that pass
validation and whose transaction commits (a row that is too short stops the program). -/
def loadedRows : List (Option String) → List (List String) → List (Record × Parsed)
  | _, [] => []
  | fs, row :: rest =>
    match mkRecord row with
    | none => []
    | some r =>
      match parseRecord r with
      | none => loadedRows fs rest
      | some p =>
        if failsWithin 6 fs then loadedRows (afterCalls 6 fs) rest
        else (r, p) :: loadedRows (afterCalls 6 fs) rest

/-- The record and the parsed values of a data row that passes validation; `none` for a row
that is too short or has a field that does not parse. -/
def rowBundle (row : List String) : Option (Record × Parsed) :=
  match mkRecord row with
  | none => none
  | some r =>
    match parseRecord r with
    | none => none
    | some p => some (r, p)

/-- A table after a call keeps the table before it: it is the table before, followed by rows
whose keys no row had before. -/
def tableKeeps {α κ : Type} (key : α → κ) (before after : List α) : Prop :=
  ∃ added, after = before ++ added ∧ ∀ x ∈ added, ∀ y ∈ before, key y ≠ key x

/-- Every table of the second store keeps the table of the first. -/
def Store.keptBy (s s' : Store) : Prop :=
  tableKeeps Customer.customer_id s.customers s'.customers
    ∧ tableKeeps Product.product_id s.products s'.products
    ∧ tableKeeps Order.order_id s.orders s'.orders
    ∧ tableKeeps OrderItem.key s.orderItems s'.orderItems

/-! ## Sample data -/

/-- A header line. -/
def sampleHeader : List String :=
  ["Order ID", "Product ID", "Customer ID", "Product Name", "Category", "Region",
   "Date of Sale", "Quantity Sold", "Unit Price", "Discount", "Shipping Cost",
   "Payment Method", "Customer Name", "Customer Email", "Customer Address"]

/-- The row of the scenario in the specification. -/
def rowO1 : List String :=
  ["O1", "P1", "C1", "Widget", "Tools", "West", "2024-01-05", "3", "9.99", "1.00", "2.50",
   "card", "Alice", "a@x.com", "1 Main St"]

/-- A row whose quantity field is `abc`. -/
def rowBadQuantity : List String :=
  ["O2", "P2", "C2", "Gadget", "Toys", "East", "2024-01-06", "abc", "5.00", "0.00", "1.00",
   "cash", "Bob", "b@x.com", "2 Side St"]

/-- A second valid row, with keys of its own. -/
def rowO3 : List String :=
  ["O3", "P3", "C3", "Gizmo", "Toys", "North", "2024-02-29", "2", "4.50", "0.50", "0.00",
   "card", "Carol", "c@x.com", "3 High St"]

/-- A row whose unit price field is the negative decimal `-1.00`. -/
def rowNegative : List String :=
  ["O9", "P9", "C9", "Refund", "Tools", "West", "2024-03-01", "1", "-1.00", "0.00", "0.00",
   "card", "Dan", "d@x.com", "9 Low St"]

/-- A valid row with the customer of `rowO1` and an order and a product of its own. -/
def rowO4 : List String :=
  ["O4", "P4", "C1", "Sprocket", "Tools", "West", "2024-01-07", "1", "2.00", "0.00", "1.00",
   "cash", "Alice", "a@x.com", "1 Main St"]

/-- The same order, product and customer keys as `rowO1` with other attribute values. -/
def rowO1Changed : List String :=
  ["O1", "P1", "C1", "Widget v2", "Hardware", "South", "2024-06-30", "7", "19.99", "0.00",
   "5.00", "cash", "Alicia", "alicia@x.com", "7 New St"]

/-! ## Basic facts about the store calls and the loop body -/

theorem failsWithin_eq_false_iff (n : Nat) (fs : List (Option String)) :
    failsWithin n fs = false ↔ ∀ f ∈ fs.take n, f = none := by
  induction n generalizing fs with
  | zero => simp [failsWithin]
  | succ n ih =>
    rcases fs with _ | ⟨_ | e, fs⟩
    · simp [failsWithin]
    · simp [failsWithin, ih]
    · simp [failsWithin]

theorem afterCalls_of_not_fails (n : Nat) (fs : List (Option String))
    (h : failsWithin n fs = false) : afterCalls n fs = fs.drop n := by
  induction n generalizing fs with
  | zero => simp [afterCalls]
  | succ n ih =>
    rcases fs with _ | ⟨_ | e, fs⟩
    · simp [afterCalls]
    · simp [failsWithin] at h
      simp [afterCalls, ih fs h]
    · simp [failsWithin] at h

theorem fails_of_script (n k : Nat) (hk : k < n) (e : String) (tail : List (Option String)) :
    failsWithin n (List.replicate k none ++ some e :: tail) = true
      ∧ afterCalls n (List.replicate k none ++ some e :: tail) = tail := by
  induction k generalizing n with
  | zero =>
    obtain ⟨m, rfl⟩ : ∃ m, n = m + 1 := ⟨n - 1, by omega⟩
    simp [failsWithin, afterCalls]
  | succ k ih =>
    obtain ⟨m, rfl⟩ : ∃ m, n = m + 1 := ⟨n - 1, by omega⟩
    have := ih m (by omega)
    simpa [List.replicate_succ, failsWithin, afterCalls] using this

/-- The per-row transaction in closed form: all four inserts take effect when none of its six
calls (begin, four statements, commit) fails, none does otherwise. -/
theorem insertRow_eq (db : DB) (r : Record) (p : Parsed) :
    insertRow db r p =
      ⟨if failsWithin 6 db.faults then db.store else applyRow db.store r p,
       afterCalls 6 db.faults⟩ := by
  obtain ⟨s, fs⟩ := db
  rcases fs with _ | ⟨_ | e0, fs⟩ <;> try rcases fs with _ | ⟨_ | e1, fs⟩ <;>
    try rcases fs with _ | ⟨_ | e2, fs⟩ <;> try rcases fs with _ | ⟨_ | e3, fs⟩ <;>
    try rcases fs with _ | ⟨_ | e4, fs⟩ <;> try rcases fs with _ | ⟨_ | e5, fs⟩
  all_goals
    simp [insertRow, DB.Begin, DB.next, Tx.Exec, Tx.Commit, Tx.Rollback, Stmt.run,
      failsWithin, afterCalls, applyRow]

/-- One iteration of the loop on a data row that is too short: the program panics. -/
theorem loadLoop_cons_panic (i : Nat) (row : List String) (rest : List (List String)) (db : DB)
    (hm : mkRecord row = none) : loadLoop (i + 1) (row :: rest) db = (.panicked, db) := by
  simp [loadLoop, hm]

/-- One iteration of the loop on a data row that fails validation: the row is skipped. -/
theorem loadLoop_cons_skip (i : Nat) (row : List String) (rest : List (List String)) (db : DB)
    (r : Record) (hm : mkRecord row = some r) (hp : parseRecord r = none) :
    loadLoop (i + 1) (row :: rest) db = loadLoop (i + 2) rest db := by
  simp [loadLoop, hm, hp]

/-- One iteration of the loop on a validated data row: its transaction runs. -/
theorem loadLoop_cons_load (i : Nat) (row : List String) (rest : List (List String)) (db : DB)
    (r : Record) (p : Parsed) (hm : mkRecord row = some r) (hp : parseRecord r = some p) :
    loadLoop (i + 1) (row :: rest) db = loadLoop (i + 2) rest (insertRow db r p) := by
  simp [loadLoop, hm, hp]

theorem loadLoop_index (i j : Nat) (rs : List (List String)) (db : DB) :
    loadLoop (i + 1) rs db = loadLoop (j + 1) rs db := by
  induction rs generalizing i j db with
  | nil => simp [loadLoop]
  | cons row rest ih =>
    rcases hm : mkRecord row with _ | r
    · rw [loadLoop_cons_panic _ _ _ _ hm, loadLoop_cons_panic _ _ _ _ hm]
    · rcases hp : parseRecord r with _ | p
      · rw [loadLoop_cons_skip _ _ _ _ r hm hp, loadLoop_cons_skip _ _ _ _ r hm hp]
        exact ih _ _ _
      · rw [loadLoop_cons_load _ _ _ _ r p hm hp, loadLoop_cons_load _ _ _ _ r p hm hp]
        exact ih _ _ _

/-- The loader on a header followed by data rows is the loop on the data rows. -/
theorem LoadCSVData_records (db : DB) (hdr : List String) (rows : List (List String)) :
    LoadCSVData db (.records (hdr :: rows)) = loadLoop 1 rows db := by
  simp [LoadCSVData, loadLoop]

/-- A row of fifteen fields builds a record whose parse agrees with `fieldsParse`. -/
theorem mkRecord_of_length (row : List String) (h : row.length = 15) :
    ∃ r, mkRecord row = some r ∧ ((parseRecord r).isSome = fieldsParse row) := by
  match row, h with
  | [f0, f1, f2, f3, f4, f5, f6, f7, f8, f9, f10, f11, f12, f13, f14], _ =>
    refine ⟨_, rfl, ?_⟩
    simp only [parseRecord, fieldsParse, List.getD_cons_succ, List.getD_cons_zero]
    cases timeParse f6 <;> cases parseFloat f8 <;> cases parseFloat f10 <;>
      cases parseFloat f9 <;> cases atoi f7 <;> simp

/-! ## Rows that fail validation are skipped -/

theorem loadLoop_filter (rows : List (List String)) (db : DB)
    (h15 : ∀ row ∈ rows, row.length = 15) :
    loadLoop 1 rows db = loadLoop 1 (rows.filter fieldsParse) db
      ∧ (loadLoop 1 rows db).1 = .returned none := by
  induction rows generalizing db with
  | nil => simp [loadLoop]
  | cons row rest ih =>
    obtain ⟨r, hm, hfp⟩ := mkRecord_of_length row (h15 row (List.mem_cons_self _ _))
    have h15r : ∀ x ∈ rest, x.length = 15 := fun x hx => h15 x (List.mem_cons_of_mem _ hx)
    rcases hp : parseRecord r with _ | p
    · have hf : fieldsParse row = false := by rw [← hfp, hp]; rfl
      rw [loadLoop_cons_skip 0 row rest db r hm hp, List.filter_cons_of_neg (by simp [hf]),
        loadLoop_index 1 0]
      exact ih db h15r
    · have hf : fieldsParse row = true := by rw [← hfp, hp]; rfl
      rw [loadLoop_cons_load 0 row rest db r p hm hp, List.filter_cons_of_pos hf,
        loadLoop_cons_load 0 row _ db r p hm hp, loadLoop_index 1 0,
        loadLoop_index 1 0 (List.filter _ _)]
      exact ih _ h15r

/-- A validated row whose transaction meets no failure: the loop on it applies the four
inserts and consumes six script entries. -/
theorem loadLoop_single_ok (db : DB) (row : List String) (r : Record) (p : Parsed)
    (hm : mkRecord row = some r) (hp : parseRecord r = some p)
    (hok : ∀ f ∈ db.faults.take 6, f = none) :
    loadLoop 1 [row] db = (.returned none, ⟨applyRow db.store r p, db.faults.drop 6⟩) := by
  have hnf : failsWithin 6 db.faults = false := (failsWithin_eq_false_iff 6 _).2 hok
  rw [loadLoop_cons_load 0 row [] db r p hm hp, insertRow_eq, hnf,
    afterCalls_of_not_fails 6 _ hnf]
  simp [loadLoop]

/-- The parse of a record built from fifteen fields, given the parses of its five fields. -/
theorem parseRecord_fields (f0 f1 f2 f3 f4 f5 f6 f7 f8 f9 f10 f11 f12 f13 f14 : String)
    (d : Date) (u sc di : Float64) (q : Int)
    (hd : timeParse f6 = some d) (hu : parseFloat f8 = some u)
    (hsc : parseFloat f10 = some sc) (hdi : parseFloat f9 = some di)
    (hq : atoi f7 = some q) :
    parseRecord ⟨f0, f1, f2, f3, f4, f5, f6, f7, f8, f9, f10, f11, f12, f13, f14⟩
      = some ⟨d, u, sc, di, q⟩ := by
  simp [parseRecord, hd, hu, hsc, hdi, hq]

/-! ## C5: what a valid row inserts -/

/-- C5: a row of 15 fields whose date (field 7), quantity (field 8), unit price (field 9),
discount (field 10) and shipping cost (field 11) parse, loaded into an empty store while no
store call fails, leaves exactly one customer (id field 3, name field 13, email field 14,
address field 15, region field 6), one product (id field 2, name field 4, category field 5,
unit price field 9), one order (id field 1, customer field 3, date field 7, payment method
field 12, shipping cost field 11, discount field 10) and one order item (order field 1,
product field 2, quantity field 8, unit price field 9, discount field 10). -/
theorem C5_valid_row_inserts_four_entities (hdr : List String)
    (f0 f1 f2 f3 f4 f5 f6 f7 f8 f9 f10 f11 f12 f13 f14 : String)
    (faults : List (Option String)) (d : Date) (u sc di : Float64) (q : Int)
    (hd : timeParse f6 = some d) (hq : atoi f7 = some q) (hu : parseFloat f8 = some u)
    (hdi : parseFloat f9 = some di) (hsc : parseFloat f10 = some sc)
    (hok : ∀ f ∈ faults.take 6, f = none) :
    LoadCSVData ⟨Store.empty, faults⟩
        (.records [hdr, [f0, f1, f2, f3, f4, f5, f6, f7, f8, f9, f10, f11, f12, f13, f14]])
      = (.returned none,
          ⟨{ customers := [⟨f2, f12, f13, f14, f5⟩],
             products := [⟨f1, f3, f4, u⟩],
             orders := [⟨f0, f2, d, f11, sc, di⟩],
             orderItems := [⟨f0, f1, q, u, di⟩] },
           faults.drop 6⟩) := by
  rw [LoadCSVData_records,
    loadLoop_single_ok ⟨Store.empty, faults⟩
      [f0, f1, f2, f3, f4, f5, f6, f7, f8, f9, f10, f11, f12, f13, f14]
      ⟨f0, f1, f2, f3, f4, f5, f6, f7, f8, f9, f10, f11, f12, f13, f14⟩ ⟨d, u, sc, di, q⟩ rfl
      (parseRecord_fields f0 f1 f2 f3 f4 f5 f6 f7 f8 f9 f10 f11 f12 f13 f14 d u sc di q
        hd hu hsc hdi hq) hok]
  simp [applyRow, insertIfAbsent, Store.empty, customerOf, productOf, orderOf, orderItemOf]

/-- C5 at the row of the scenario: customer C1, product P1, order O1 with shipping 2.50 and
discount 1.00, an order item with quantity 3, unit price 9.99 and discount 1.00. -/
theorem C5_valid_row_inserts_four_entities_witness :
    (timeParse "2024-01-05" = some ⟨2024, 1, 5⟩ ∧ atoi "3" = some 3
        ∧ parseFloat "9.99" = some (.dec false 999 (-2))
        ∧ parseFloat "1.00" = some (.dec false 100 (-2))
        ∧ parseFloat "2.50" = some (.dec false 250 (-2)))
      ∧ LoadCSVData ⟨Store.empty, []⟩ (.records [sampleHeader, rowO1])
        = (.returned none,
            ⟨{ customers := [⟨"C1", "Alice", "a@x.com", "1 Main St", "West"⟩],
               products := [⟨"P1", "Widget", "Tools", .dec false 999 (-2)⟩],
               orders := [⟨"O1", "C1", ⟨2024, 1, 5⟩, "card", .dec false 250 (-2),
                            .dec false 100 (-2)⟩],
               orderItems := [⟨"O1", "P1", 3, .dec false 999 (-2), .dec false 100 (-2)⟩] },
             []⟩) :=
  ⟨by decide,
    C5_valid_row_inserts_four_entities sampleHeader "O1" "P1" "C1" "Widget" "Tools" "West"
      "2024-01-05" "3" "9.99" "1.00" "2.50" "card" "Alice" "a@x.com" "1 Main St" []
      ⟨2024, 1, 5⟩ (.dec false 999 (-2)) (.dec false 250 (-2)) (.dec false 100 (-2)) 3
      (by decide) (by decide) (by decide) (by decide) (by decide) (by simp)⟩

/-! ## C2: negative amounts -/

/-- C2 fails as stated: the unit price field `-1.00` parses to a negative number, the row is
not skipped, and its customer, product (unit price -1.00), order and order item are in the
store after the load. -/
theorem C2_negative_amount_counterexample :
    (parseFloat "-1.00").map Float64.isNegative = some true
      ∧ (LoadCSVData ⟨Store.empty, []⟩ (.records [sampleHeader, rowNegative])).2.store
        = { customers := [⟨"C9", "Dan", "d@x.com", "9 Low St", "West"⟩],
            products := [⟨"P9", "Refund", "Tools", .dec true 100 (-2)⟩],
            orders := [⟨"O9", "C9", ⟨2024, 3, 1⟩, "card", .dec false 0 0, .dec false 0 0⟩],
            orderItems := [⟨"O9", "P9", 1, .dec true 100 (-2), .dec false 0 0⟩] } := by
  decide

/-- C2 as amended: a row of 15 fields whose unit price, shipping cost or discount field parses
to a negative number, and whose date, quantity and other two amounts parse as well, passes
the validation of `LoadCSVData`; when none of the six store calls of its transaction fails,
its customer, product, order and order item are inserted (each unless its key is present
already), with the negative amounts as parsed. -/
theorem C2_negative_amount_is_loaded (db : DB) (hdr : List String)
    (f0 f1 f2 f3 f4 f5 f6 f7 f8 f9 f10 f11 f12 f13 f14 : String)
    (d : Date) (u sc di : Float64) (q : Int)
    (hd : timeParse f6 = some d) (hq : atoi f7 = some q) (hu : parseFloat f8 = some u)
    (hdi : parseFloat f9 = some di) (hsc : parseFloat f10 = some sc)
    (_hneg : u.isNegative = true ∨ sc.isNegative = true ∨ di.isNegative = true)
    (hok : ∀ f ∈ db.faults.take 6, f = none) :
    fieldsParse [f0, f1, f2, f3, f4, f5, f6, f7, f8, f9, f10, f11, f12, f13, f14] = true
      ∧ LoadCSVData db
          (.records [hdr, [f0, f1, f2, f3, f4, f5, f6, f7, f8, f9, f10, f11, f12, f13, f14]])
        = (.returned none,
            ⟨{ customers :=
                 insertIfAbsent Customer.customer_id ⟨f2, f12, f13, f14, f5⟩ db.store.customers,
               products :=
                 insertIfAbsent Product.product_id ⟨f1, f3, f4, u⟩ db.store.products,
               orders :=
                 insertIfAbsent Order.order_id ⟨f0, f2, d, f11, sc, di⟩ db.store.orders,
               orderItems :=
                 insertIfAbsent OrderItem.key ⟨f0, f1, q, u, di⟩ db.store.orderItems },
             db.faults.drop 6⟩) := by
  refine ⟨by simp [fieldsParse, hd, hq, hu, hdi, hsc], ?_⟩
  rw [LoadCSVData_records,
    loadLoop_single_ok db
      [f0, f1, f2, f3, f4, f5, f6, f7, f8, f9, f10, f11, f12, f13, f14]
      ⟨f0, f1, f2, f3, f4, f5, f6, f7, f8, f9, f10, f11, f12, f13, f14⟩ ⟨d, u, sc, di, q⟩ rfl
      (parseRecord_fields f0 f1 f2 f3 f4 f5 f6 f7 f8 f9 f10 f11 f12 f13 f14 d u sc di q
        hd hu hsc hdi hq) hok]
  rfl

/-- The amended C2 at `rowNegative` (unit price `-1.00`) and a store that already holds
customer C9: the product, order and order item of the row are inserted. -/
theorem C2_negative_amount_is_loaded_witness :
    (parseFloat "-1.00" = some (.dec true 100 (-2))
        ∧ Float64.isNegative (.dec true 100 (-2)) = true)
      ∧ LoadCSVData ⟨⟨[⟨"C9", "Dan", "d@x.com", "9 Low St", "West"⟩], [], [], []⟩, []⟩
          (.records [sampleHeader, rowNegative])
        = (.returned none,
            ⟨{ customers := [⟨"C9", "Dan", "d@x.com", "9 Low St", "West"⟩],
               products := [⟨"P9", "Refund", "Tools", .dec true 100 (-2)⟩],
               orders := [⟨"O9", "C9", ⟨2024, 3, 1⟩, "card", .dec false 0 0, .dec false 0 0⟩],
               orderItems := [⟨"O9", "P9", 1, .dec true 100 (-2), .dec false 0 0⟩] },
             []⟩) :=
  ⟨by decide,
    (C2_negative_amount_is_loaded
      ⟨⟨[⟨"C9", "Dan", "d@x.com", "9 Low St", "West"⟩], [], [], []⟩, []⟩ sampleHeader
      "O9" "P9" "C9" "Refund" "Tools" "West" "2024-03-01" "1" "-1.00" "0.00" "0.00"
      "card" "Dan" "d@x.com" "9 Low St"
      ⟨2024, 3, 1⟩ (.dec true 100 (-2)) (.dec false 0 0) (.dec false 0 0) 1
      (by decide) (by decide) (by decide) (by decide) (by decide)
      (Or.inl (by decide)) (by simp)).2⟩

/-! ## C3: a failing transaction leaves no trace and does not stop the batch -/

/-- C3: for every store and every validated data row, when the transaction of the row has
begun and its insert number `k + 1` (`k < 4`: customer, product, order, order item) or its
commit (`k = 4`) fails, the content of the store after the row is its content before the row,
`LoadCSVData` returns no error for the row, and it goes on with the rows that follow. -/
theorem C3_failed_transaction_is_rolled_back (db : DB) (hdr row : List String)
    (rest : List (List String)) (r : Record) (p : Parsed)
    (hm : mkRecord row = some r) (hp : parseRecord r = some p)
    (k : Nat) (hk : k < 5) (e : String) (tail : List (Option String))
    (hf : db.faults = List.replicate (k + 1) none ++ some e :: tail) :
    insertRow db r p = ⟨db.store, tail⟩
      ∧ LoadCSVData db (.records [hdr, row]) = (.returned none, ⟨db.store, tail⟩)
      ∧ LoadCSVData db (.records (hdr :: row :: rest))
          = LoadCSVData ⟨db.store, tail⟩ (.records (hdr :: rest)) := by
  have hrow : insertRow db r p = ⟨db.store, tail⟩ := by
    rw [insertRow_eq, hf, (fails_of_script 6 (k + 1) (by omega) e tail).1,
      (fails_of_script 6 (k + 1) (by omega) e tail).2]
    simp
  refine ⟨hrow, ?_, ?_⟩
  · rw [LoadCSVData_records, loadLoop_cons_load 0 row [] db r p hm hp, hrow]
    simp [loadLoop]
  · rw [LoadCSVData_records, LoadCSVData_records, loadLoop_cons_load 0 row rest db r p hm hp,
      hrow, loadLoop_index 1 0]

/-- C3 at a store that holds the entities of `rowO1` and a script in which the third insert
(the order) of the next transaction fails: `rowO3` leaves no trace. -/
theorem C3_failed_transaction_is_rolled_back_witness :
    LoadCSVData
        ⟨(LoadCSVData ⟨Store.empty, []⟩ (.records [sampleHeader, rowO1])).2.store,
          [none, none, none, some "connection lost", some "unused"]⟩
        (.records [sampleHeader, rowO3])
      = (.returned none,
          ⟨(LoadCSVData ⟨Store.empty, []⟩ (.records [sampleHeader, rowO1])).2.store,
            [some "unused"]⟩) :=
  (C3_failed_transaction_is_rolled_back
    ⟨(LoadCSVData ⟨Store.empty, []⟩ (.records [sampleHeader, rowO1])).2.store,
      [none, none, none, some "connection lost", some "unused"]⟩
    sampleHeader rowO3 []
    ⟨"O3", "P3", "C3", "Gizmo", "Toys", "North", "2024-02-29", "2", "4.50", "0.50", "0.00",
      "card", "Carol", "c@x.com", "3 High St"⟩
    ⟨⟨2024, 2, 29⟩, .dec false 450 (-2), .dec false 0 0, .dec false 50 (-2), 2⟩
    (by decide) (by decide) 2 (by decide) "connection lost" [some "unused"] (by decide)).2.1

/-! ## C4: submitting a row twice -/

theorem insertIfAbsent_idem {α κ : Type} [DecidableEq κ] (key : α → κ) (x : α) (t : List α) :
    insertIfAbsent key x (insertIfAbsent key x t) = insertIfAbsent key x t := by
  unfold insertIfAbsent
  by_cases h : (t.any fun y => decide (key y = key x)) = true
  · simp [h]
  · simp [h]

theorem applyRow_idem (s : Store) (r : Record) (p : Parsed) :
    applyRow (applyRow s r p) r p = applyRow s r p := by
  simp [applyRow, insertIfAbsent_idem]

/-- The store content after the transaction of a row, whatever the script: unchanged, or
with the four inserts applied. -/
theorem insertRow_store (db : DB) (r : Record) (p : Parsed) :
    (insertRow db r p).store = db.store ∨ (insertRow db r p).store = applyRow db.store r p := by
  rw [insertRow_eq]
  cases failsWithin 6 db.faults <;> simp

/-- C4: for every store and every valid data row, once the row has been loaded (its
transaction met no failure), processing it a second time, with or without store failures,
leaves the store as the first submission left it; in particular the numbers of customers,
products, orders and order items do not change. -/
theorem C4_resubmission_is_idempotent (db : DB) (hdr row : List String)
    (r : Record) (p : Parsed)
    (hm : mkRecord row = some r) (hp : parseRecord r = some p)
    (hok : ∀ f ∈ db.faults.take 6, f = none) :
    (LoadCSVData db (.records [hdr, row])).2.store = applyRow db.store r p
      ∧ (LoadCSVData (LoadCSVData db (.records [hdr, row])).2 (.records [hdr, row])).2.store
          = (LoadCSVData db (.records [hdr, row])).2.store
      ∧ (LoadCSVData (LoadCSVData db (.records [hdr, row])).2
            (.records [hdr, row])).2.store.customers.length
          = (LoadCSVData db (.records [hdr, row])).2.store.customers.length
      ∧ (LoadCSVData (LoadCSVData db (.records [hdr, row])).2
            (.records [hdr, row])).2.store.products.length
          = (LoadCSVData db (.records [hdr, row])).2.store.products.length
      ∧ (LoadCSVData (LoadCSVData db (.records [hdr, row])).2
            (.records [hdr, row])).2.store.orders.length
          = (LoadCSVData db (.records [hdr, row])).2.store.orders.length
      ∧ (LoadCSVData (LoadCSVData db (.records [hdr, row])).2
            (.records [hdr, row])).2.store.orderItems.length
          = (LoadCSVData db (.records [hdr, row])).2.store.orderItems.length := by
  have h1 : LoadCSVData db (.records [hdr, row])
      = (.returned none, ⟨applyRow db.store r p, db.faults.drop 6⟩) := by
    rw [LoadCSVData_records, loadLoop_single_ok db row r p hm hp hok]
  have h2 : (LoadCSVData ⟨applyRow db.store r p, db.faults.drop 6⟩
      (.records [hdr, row])).2.store = applyRow db.store r p := by
    rw [LoadCSVData_records, loadLoop_cons_load 0 row [] _ r p hm hp]
    simp only [loadLoop]
    rcases insertRow_store ⟨applyRow db.store r p, db.faults.drop 6⟩ r p with h | h
    · exact h
    · rw [h]; exact applyRow_idem _ _ _
  rw [h1]
  simp only [h2, and_self]

/-- C4 at `rowO1` submitted twice to a store that holds the entities of `rowO3`: two
customers, products, orders and order items after the first and after the second time. -/
theorem C4_resubmission_is_idempotent_witness :
    (LoadCSVData
        (LoadCSVData (LoadCSVData ⟨Store.empty, []⟩ (.records [sampleHeader, rowO3])).2
          (.records [sampleHeader, rowO1])).2
        (.records [sampleHeader, rowO1])).2.store
      = (LoadCSVData (LoadCSVData ⟨Store.empty, []⟩ (.records [sampleHeader, rowO3])).2
          (.records [sampleHeader, rowO1])).2.store
      ∧ (LoadCSVData (LoadCSVData ⟨Store.empty, []⟩ (.records [sampleHeader, rowO3])).2
          (.records [sampleHeader, rowO1])).2.store.customers.length = 2 :=
  ⟨(C4_resubmission_is_idempotent
      (LoadCSVData ⟨Store.empty, []⟩ (.records [sampleHeader, rowO3])).2 sampleHeader rowO1
      ⟨"O1", "P1", "C1", "Widget", "Tools", "West", "2024-01-05", "3", "9.99", "1.00", "2.50",
        "card", "Alice", "a@x.com", "1 Main St"⟩
      ⟨⟨2024, 1, 5⟩, .dec false 999 (-2), .dec false 250 (-2), .dec false 100 (-2), 3⟩
      (by decide) (by decide) (by decide)).2.1,
    by decide⟩

/-! ## C6: a failing truncation -/

/-- The result of `RefreshData` when its transaction has begun, the first `k` truncations have
succeeded and the next one fails. -/
theorem RefreshData_truncate_fails (db : DB) (csvFile : CsvFile) (k : Nat) (name e : String)
    (tail : List (Option String))
    (hk : ["order_items", "orders", "products", "customers"][k]? = some name)
    (hf : db.faults = List.replicate (k + 1) none ++ some e :: tail) :
    RefreshData db csvFile
      = (.returned (some ("failed to truncate table " ++ name ++ ": " ++ e)),
          ⟨db.store, tail⟩) := by
  obtain ⟨s, fs⟩ := db
  simp only at hf
  subst hf
  have hk4 : k < 4 := by
    by_contra hcon
    have : 4 ≤ k := by omega
    simp [List.getElem?_eq_none, this] at hk
  interval_cases k <;> simp at hk <;> subst hk <;>
    simp [RefreshData, DB.Begin, DB.next, truncateLoop, tables, Tx.Exec, Tx.Rollback, Stmt.run,
      truncateCascade, List.replicate]

/-- C6: `RefreshData` truncates inside one transaction in the order order_items, orders,
products, customers: for every store and source, when the transaction has begun and the
truncation at position `k` of that order fails (the earlier ones having succeeded),
`RefreshData` returns the error that names that table, the content of the store is its
content before the refresh, and nothing else is done: no further store call is consumed and
the result does not depend on the source, so `LoadCSVData` has not run. (When the four
truncations succeed, the transaction holds four empty tables.) -/
theorem C6_truncation_failure_restores_store (db : DB) (csvFile : CsvFile) (k : Nat)
    (name e : String) (tail : List (Option String))
    (hk : ["order_items", "orders", "products", "customers"][k]? = some name)
    (hf : db.faults = List.replicate (k + 1) none ++ some e :: tail) :
    RefreshData db csvFile
        = (.returned (some ("failed to truncate table " ++ name ++ ": " ++ e)),
            ⟨db.store, tail⟩)
      ∧ (∀ other : CsvFile, RefreshData db other = RefreshData db csvFile)
      ∧ (truncateLoop tables ⟨db.store⟩ ⟨db.store, []⟩).1 = .ok ⟨Store.empty⟩ := by
  refine ⟨RefreshData_truncate_fails db csvFile k name e tail hk hf, fun other => ?_, ?_⟩
  · rw [RefreshData_truncate_fails db csvFile k name e tail hk hf,
      RefreshData_truncate_fails db other k name e tail hk hf]
  · simp [truncateLoop, tables, Tx.Exec, DB.next, Stmt.run, truncateCascade, Store.empty]

/-- C6 at a store that holds the entities of `rowO1`, when the truncation of `products` (the
third one) fails. -/
theorem C6_truncation_failure_restores_store_witness :
    RefreshData
        ⟨(LoadCSVData ⟨Store.empty, []⟩ (.records [sampleHeader, rowO1])).2.store,
          [none, none, none, some "deadlock detected"]⟩
        (.records [sampleHeader, rowO3])
      = (.returned (some "failed to truncate table products: deadlock detected"),
          ⟨(LoadCSVData ⟨Store.empty, []⟩ (.records [sampleHeader, rowO1])).2.store, []⟩) :=
  (C6_truncation_failure_restores_store
    ⟨(LoadCSVData ⟨Store.empty, []⟩ (.records [sampleHeader, rowO1])).2.store,
      [none, none, none, some "deadlock detected"]⟩
    (.records [sampleHeader, rowO3]) 2 "products" "deadlock detected" []
    (by decide) (by decide)).1

/-! ## `RefreshData` in closed form -/

/-- When one of the six store calls of the truncation phase (begin, four truncations, commit)
fails, `RefreshData` returns an error and the content of the store is unchanged. -/
theorem RefreshData_of_fails (db : DB) (csvFile : CsvFile)
    (h : failsWithin 6 db.faults = true) :
    ∃ msg, RefreshData db csvFile
      = (.returned (some msg), ⟨db.store, afterCalls 6 db.faults⟩) := by
  obtain ⟨s, fs⟩ := db
  rcases fs with _ | ⟨_ | e0, fs⟩ <;> try rcases fs with _ | ⟨_ | e1, fs⟩ <;>
    try rcases fs with _ | ⟨_ | e2, fs⟩ <;> try rcases fs with _ | ⟨_ | e3, fs⟩ <;>
    try rcases fs with _ | ⟨_ | e4, fs⟩ <;> try rcases fs with _ | ⟨_ | e5, fs⟩
  all_goals simp [failsWithin] at h
  all_goals
    simp [RefreshData, DB.Begin, DB.next, truncateLoop, tables, Tx.Exec, Tx.Rollback,
      Tx.Commit, Stmt.run, truncateCascade, afterCalls]

/-- When none of the six store calls of the truncation phase fails, `RefreshData` is
`LoadCSVData` on the emptied store, with the error of the loader wrapped. -/
theorem RefreshData_of_ok (db : DB) (csvFile : CsvFile)
    (h : failsWithin 6 db.faults = false) :
    RefreshData db csvFile =
      match LoadCSVData ⟨Store.empty, db.faults.drop 6⟩ csvFile with
      | (.panicked, db4) => (.panicked, db4)
      | (.returned (some e), db4) => (.returned (some ("failed to load CSV data: " ++ e)), db4)
      | (.returned none, db4) => (.returned none, db4) := by
  obtain ⟨s, fs⟩ := db
  rcases fs with _ | ⟨_ | e0, fs⟩ <;> try rcases fs with _ | ⟨_ | e1, fs⟩ <;>
    try rcases fs with _ | ⟨_ | e2, fs⟩ <;> try rcases fs with _ | ⟨_ | e3, fs⟩ <;>
    try rcases fs with _ | ⟨_ | e4, fs⟩ <;> try rcases fs with _ | ⟨_ | e5, fs⟩
  all_goals simp [failsWithin] at h
  all_goals
    simp [RefreshData, DB.Begin, DB.next, truncateLoop, tables, Tx.Exec, Tx.Rollback,
      Tx.Commit, Stmt.run, truncateCascade, Store.empty]

theorem RefreshData_of_ok_db (db : DB) (csvFile : CsvFile)
    (h : failsWithin 6 db.faults = false) :
    (RefreshData db csvFile).2 = (LoadCSVData ⟨Store.empty, db.faults.drop 6⟩ csvFile).2 := by
  rw [RefreshData_of_ok db csvFile h]
  rcases LoadCSVData ⟨Store.empty, db.faults.drop 6⟩ csvFile with ⟨o, db4⟩
  rcases o with err | _
  · rcases err with _ | e <;> rfl
  · rfl

/-! ## C9: the source cannot be read -/

/-- C9: `LoadCSVData` returns the open or read error without a store call (the store handle
is returned as it was); and for every initial store, when the six store calls of the
truncation phase succeed and the source then cannot be opened or read, `RefreshData` returns
an error and leaves all four tables empty. -/
theorem C9_unreadable_source_leaves_store_empty (db : DB) (e : String)
    (hok : ∀ f ∈ db.faults.take 6, f = none) :
    LoadCSVData db (.openFails e) = (.returned (some ("failed to open file: " ++ e)), db)
      ∧ LoadCSVData db (.readFails e) = (.returned (some ("failed to read CSV: " ++ e)), db)
      ∧ RefreshData db (.openFails e)
          = (.returned (some ("failed to load CSV data: " ++ ("failed to open file: " ++ e))),
              ⟨Store.empty, db.faults.drop 6⟩)
      ∧ RefreshData db (.readFails e)
          = (.returned (some ("failed to load CSV data: " ++ ("failed to read CSV: " ++ e))),
              ⟨Store.empty, db.faults.drop 6⟩) := by
  have hnf : failsWithin 6 db.faults = false := (failsWithin_eq_false_iff 6 _).2 hok
  refine ⟨rfl, rfl, ?_, ?_⟩
  · rw [RefreshData_of_ok db _ hnf]
    simp [LoadCSVData]
  · rw [RefreshData_of_ok db _ hnf]
    simp [LoadCSVData]

/-- C9 at a store that holds the entities of `rowO1`, with no store failure and a source that
cannot be opened. -/
theorem C9_unreadable_source_leaves_store_empty_witness :
    RefreshData ⟨(LoadCSVData ⟨Store.empty, []⟩ (.records [sampleHeader, rowO1])).2.store, []⟩
        (.openFails "no such file or directory")
      = (.returned
          (some "failed to load CSV data: failed to open file: no such file or directory"),
          ⟨Store.empty, []⟩) :=
  (C9_unreadable_source_leaves_store_empty
    ⟨(LoadCSVData ⟨Store.empty, []⟩ (.records [sampleHeader, rowO1])).2.store, []⟩
    "no such file or directory" (by simp)).2.2.1

/-! ## C8: refreshing twice -/

theorem failsWithin_of_noFaults (n : Nat) (fs : List (Option String))
    (h : ∀ f ∈ fs, f = none) : failsWithin n fs = false :=
  (failsWithin_eq_false_iff n fs).2 (fun f hf => h f (List.mem_of_mem_take hf))

theorem noFaults_drop (n : Nat) (fs : List (Option String))
    (h : ∀ f ∈ fs, f = none) : ∀ f ∈ fs.drop n, f = none :=
  fun f hf => h f (List.mem_of_mem_drop hf)

/-- When no store call fails, the outcome of the loop and the content it leaves depend on
the content of the store only, and no failure is left in the script. -/
theorem loadLoop_noFaults (i : Nat) (rs : List (List String)) (db : DB)
    (h : ∀ f ∈ db.faults, f = none) :
    (loadLoop (i + 1) rs db).1 = (loadLoop (i + 1) rs ⟨db.store, []⟩).1
      ∧ (loadLoop (i + 1) rs db).2.store = (loadLoop (i + 1) rs ⟨db.store, []⟩).2.store
      ∧ ∀ f ∈ (loadLoop (i + 1) rs db).2.faults, f = none := by
  induction rs generalizing i db with
  | nil => exact ⟨rfl, rfl, h⟩
  | cons row rest ih =>
    rcases hm : mkRecord row with _ | r
    · rw [loadLoop_cons_panic _ _ _ _ hm, loadLoop_cons_panic _ _ _ _ hm]
      exact ⟨rfl, rfl, h⟩
    · rcases hp : parseRecord r with _ | p
      · rw [loadLoop_cons_skip _ _ _ _ r hm hp, loadLoop_cons_skip _ _ _ _ r hm hp]
        exact ih (i + 1) db h
      · rw [loadLoop_cons_load _ _ _ _ r p hm hp, loadLoop_cons_load _ _ _ _ r p hm hp]
        have hnf := failsWithin_of_noFaults 6 db.faults h
        have h1 : insertRow db r p = ⟨applyRow db.store r p, db.faults.drop 6⟩ := by
          rw [insertRow_eq, hnf, afterCalls_of_not_fails 6 _ hnf]; simp
        have h2 : insertRow ⟨db.store, []⟩ r p = ⟨applyRow db.store r p, []⟩ := by
          rw [insertRow_eq]; simp [failsWithin, afterCalls]
        rw [h1, h2]
        exact ih (i + 1) ⟨applyRow db.store r p, db.faults.drop 6⟩
          (noFaults_drop 6 db.faults h)

theorem LoadCSVData_noFaults (db : DB) (csvFile : CsvFile) (h : ∀ f ∈ db.faults, f = none) :
    (LoadCSVData db csvFile).1 = (LoadCSVData ⟨db.store, []⟩ csvFile).1
      ∧ (LoadCSVData db csvFile).2.store = (LoadCSVData ⟨db.store, []⟩ csvFile).2.store
      ∧ ∀ f ∈ (LoadCSVData db csvFile).2.faults, f = none := by
  rcases csvFile with e | e | rs
  · exact ⟨rfl, rfl, h⟩
  · exact ⟨rfl, rfl, h⟩
  · rcases rs with _ | ⟨hdr, rows⟩
    · exact ⟨rfl, rfl, h⟩
    · rw [LoadCSVData_records, LoadCSVData_records]
      exact loadLoop_noFaults 0 rows db h

/-- When no store call fails, `RefreshData` leaves what `LoadCSVData` leaves on the empty
store, whatever the store held before. -/
theorem RefreshData_noFaults (db : DB) (csvFile : CsvFile) (h : ∀ f ∈ db.faults, f = none) :
    (RefreshData db csvFile).2.store = (LoadCSVData ⟨Store.empty, []⟩ csvFile).2.store
      ∧ ∀ f ∈ (RefreshData db csvFile).2.faults, f = none := by
  rw [RefreshData_of_ok_db db csvFile (failsWithin_of_noFaults 6 _ h)]
  have := LoadCSVData_noFaults ⟨Store.empty, db.faults.drop 6⟩ csvFile
    (noFaults_drop 6 db.faults h)
  exact ⟨this.2.1, this.2.2⟩

/-- C8: for every initial store and every source, when no store call fails, the store after
`RefreshData` is what `LoadCSVData` leaves on the empty store (it does not depend on the
prior content), and a second `RefreshData` with the same source right after the first leaves
the same store, hence the same numbers of customers, products, orders and order items. -/
theorem C8_refresh_twice_equals_once (db : DB) (csvFile : CsvFile)
    (h : ∀ f ∈ db.faults, f = none) :
    (RefreshData db csvFile).2.store = (LoadCSVData ⟨Store.empty, []⟩ csvFile).2.store
      ∧ (RefreshData (RefreshData db csvFile).2 csvFile).2.store
          = (RefreshData db csvFile).2.store
      ∧ (RefreshData (RefreshData db csvFile).2 csvFile).2.store.customers.length
          = (RefreshData db csvFile).2.store.customers.length
      ∧ (RefreshData (RefreshData db csvFile).2 csvFile).2.store.products.length
          = (RefreshData db csvFile).2.store.products.length
      ∧ (RefreshData (RefreshData db csvFile).2 csvFile).2.store.orders.length
          = (RefreshData db csvFile).2.store.orders.length
      ∧ (RefreshData (RefreshData db csvFile).2 csvFile).2.store.orderItems.length
          = (RefreshData db csvFile).2.store.orderItems.length := by
  have h1 := RefreshData_noFaults db csvFile h
  have h2 := RefreshData_noFaults (RefreshData db csvFile).2 csvFile h1.2
  have h3 : (RefreshData (RefreshData db csvFile).2 csvFile).2.store
      = (RefreshData db csvFile).2.store := by rw [h2.1, h1.1]
  exact ⟨h1.1, h3, by rw [h3], by rw [h3], by rw [h3], by rw [h3]⟩

/-- C8 at a store that holds the entities of `rowO3` and the source `rowO1`, `rowBadQuantity`:
after one refresh and after two the store holds the entities of `rowO1` only. -/
theorem C8_refresh_twice_equals_once_witness :
    (RefreshData
        (RefreshData (LoadCSVData ⟨Store.empty, []⟩ (.records [sampleHeader, rowO3])).2
          (.records [sampleHeader, rowO1, rowBadQuantity])).2
        (.records [sampleHeader, rowO1, rowBadQuantity])).2.store
      = (RefreshData (LoadCSVData ⟨Store.empty, []⟩ (.records [sampleHeader, rowO3])).2
          (.records [sampleHeader, rowO1, rowBadQuantity])).2.store
      ∧ (RefreshData (LoadCSVData ⟨Store.empty, []⟩ (.records [sampleHeader, rowO3])).2
          (.records [sampleHeader, rowO1, rowBadQuantity])).2.store
        = (LoadCSVData ⟨Store.empty, []⟩ (.records [sampleHeader, rowO1])).2.store :=
  ⟨(C8_refresh_twice_equals_once
      (LoadCSVData ⟨Store.empty, []⟩ (.records [sampleHeader, rowO3])).2
      (.records [sampleHeader, rowO1, rowBadQuantity]) (by decide)).2.1,
    by decide⟩

/-! ## C7: row counts after a refresh -/

/-- The content the loop leaves is the content it found with the four inserts of each
loaded row applied in turn. -/
theorem loadLoop_store (rows : List (List String)) (db : DB) :
    (loadLoop 1 rows db).2.store
      = (loadedRows db.faults rows).foldl (fun s rp => applyRow s rp.1 rp.2) db.store := by
  induction rows generalizing db with
  | nil => simp [loadLoop, loadedRows]
  | cons row rest ih =>
    rcases hm : mkRecord row with _ | r
    · rw [loadLoop_cons_panic _ _ _ _ hm]
      simp [loadedRows, hm]
    · rcases hp : parseRecord r with _ | p
      · rw [loadLoop_cons_skip _ _ _ _ r hm hp, loadLoop_index 1 0, ih db]
        simp [loadedRows, hm, hp]
      · rw [loadLoop_cons_load _ _ _ _ r p hm hp, loadLoop_index 1 0, ih, insertRow_eq]
        cases hf : failsWithin 6 db.faults <;> simp [loadedRows, hm, hp, hf]

theorem foldl_applyRow_customers (L : List (Record × Parsed)) (s : Store) :
    (L.foldl (fun s rp => applyRow s rp.1 rp.2) s).customers
      = L.foldl (fun t rp => insertIfAbsent Customer.customer_id (customerOf rp.1) t)
          s.customers := by
  induction L generalizing s with
  | nil => rfl
  | cons rp L ih => simp only [List.foldl_cons]; rw [ih]; rfl

theorem foldl_applyRow_products (L : List (Record × Parsed)) (s : Store) :
    (L.foldl (fun s rp => applyRow s rp.1 rp.2) s).products
      = L.foldl (fun t rp => insertIfAbsent Product.product_id (productOf rp.1 rp.2) t)
          s.products := by
  induction L generalizing s with
  | nil => rfl
  | cons rp L ih => simp only [List.foldl_cons]; rw [ih]; rfl

theorem foldl_applyRow_orders (L : List (Record × Parsed)) (s : Store) :
    (L.foldl (fun s rp => applyRow s rp.1 rp.2) s).orders
      = L.foldl (fun t rp => insertIfAbsent Order.order_id (orderOf rp.1 rp.2) t)
          s.orders := by
  induction L generalizing s with
  | nil => rfl
  | cons rp L ih => simp only [List.foldl_cons]; rw [ih]; rfl

theorem foldl_applyRow_orderItems (L : List (Record × Parsed)) (s : Store) :
    (L.foldl (fun s rp => applyRow s rp.1 rp.2) s).orderItems
      = L.foldl (fun t rp => insertIfAbsent OrderItem.key (orderItemOf rp.1 rp.2) t)
          s.orderItems := by
  induction L generalizing s with
  | nil => rfl
  | cons rp L ih => simp only [List.foldl_cons]; rw [ih]; rfl

theorem mem_keys_insertIfAbsent {α κ : Type} [DecidableEq κ] (key : α → κ) (x : α)
    (t : List α) (k : κ) :
    k ∈ (insertIfAbsent key x t).map key ↔ k ∈ t.map key ∨ k = key x := by
  unfold insertIfAbsent
  by_cases h : (t.any fun y => decide (key y = key x)) = true
  · rw [if_pos h]
    constructor
    · exact Or.inl
    · rintro (hk | rfl)
      · exact hk
      · obtain ⟨y, hy, hyx⟩ := List.any_eq_true.1 h
        exact List.mem_map.2 ⟨y, hy, by simpa using hyx⟩
  · rw [if_neg h]
    simp

theorem nodup_keys_insertIfAbsent {α κ : Type} [DecidableEq κ] (key : α → κ) (x : α)
    (t : List α) (hnd : (t.map key).Nodup) : ((insertIfAbsent key x t).map key).Nodup := by
  unfold insertIfAbsent
  by_cases h : (t.any fun y => decide (key y = key x)) = true
  · rw [if_pos h]; exact hnd
  · rw [if_neg h, List.map_append, List.map_singleton]
    refine List.Nodup.append hnd (List.nodup_singleton _) ?_
    intro k hk hk1
    rw [List.mem_singleton] at hk1
    subst hk1
    obtain ⟨y, hy, hyx⟩ := List.mem_map.1 hk
    exact h (List.any_eq_true.2 ⟨y, hy, by simpa using hyx⟩)

/-- Inserting a list of rows with insert-if-absent: the keys stay distinct, and the keys of the
table are those it had and those of the rows. -/
theorem foldl_insertIfAbsent_keys {α β κ : Type} [DecidableEq κ] (key : α → κ) (f : β → α)
    (L : List β) (t : List α) (hnd : (t.map key).Nodup) :
    ((L.foldl (fun t b => insertIfAbsent key (f b) t) t).map key).Nodup
      ∧ ∀ k, k ∈ (L.foldl (fun t b => insertIfAbsent key (f b) t) t).map key
          ↔ k ∈ t.map key ∨ k ∈ L.map (fun b => key (f b)) := by
  induction L generalizing t with
  | nil => exact ⟨hnd, fun k => by simp⟩
  | cons b L ih =>
    simp only [List.foldl_cons]
    obtain ⟨h1, h2⟩ := ih (insertIfAbsent key (f b) t) (nodup_keys_insertIfAbsent key (f b) t hnd)
    refine ⟨h1, fun k => ?_⟩
    rw [h2 k, mem_keys_insertIfAbsent]
    simp only [List.map_cons, List.mem_cons]
    tauto

/-- Rows inserted with insert-if-absent into an empty table: the table has as many rows as
there are distinct keys. -/
theorem foldl_insertIfAbsent_length {α β κ : Type} [DecidableEq κ] (key : α → κ) (f : β → α)
    (L : List β) :
    (L.foldl (fun t b => insertIfAbsent key (f b) t) []).length
      = (L.map (fun b => key (f b))).dedup.length := by
  obtain ⟨hnd, hmem⟩ := foldl_insertIfAbsent_keys key f L [] (by simp)
  rw [← List.card_toFinset, ← List.length_map (L.foldl (fun t b => insertIfAbsent key (f b) t) [])
    key, ← List.toFinset_card_of_nodup hnd]
  congr 1
  ext k
  simp [hmem k]

theorem dedup_length_le_of_map {β κ : Type} [DecidableEq κ] (g : β → κ) (L : List β) :
    (L.map g).dedup.length ≤ L.length := by
  have := (List.dedup_sublist (L.map g)).length_le
  simpa using this

theorem failsWithin_of_RefreshData_ok (db : DB) (csvFile : CsvFile)
    (h : (RefreshData db csvFile).1 = .returned none) : failsWithin 6 db.faults = false := by
  by_contra hcon
  obtain ⟨msg, hmsg⟩ := RefreshData_of_fails db csvFile (by simpa using hcon)
  rw [hmsg] at h
  simp at h

/-- C7 fails as stated: refreshing the empty store from `rowO1` and `rowO4`, two valid rows
with the same customer, succeeds and skips no row, yet table customers has one row. -/
theorem C7_row_counts_counterexample :
    (RefreshData ⟨Store.empty, []⟩ (.records [sampleHeader, rowO1, rowO4])).1 = .returned none
      ∧ (loadedRows [] [rowO1, rowO4]).length = 2
      ∧ (RefreshData ⟨Store.empty, []⟩
          (.records [sampleHeader, rowO1, rowO4])).2.store.customers.length = 1
      ∧ (RefreshData ⟨Store.empty, []⟩
          (.records [sampleHeader, rowO1, rowO4])).2.store.customers.length
        ≠ (loadedRows [] [rowO1, rowO4]).length := by
  decide

theorem dedup_length_eq_iff {κ : Type} [DecidableEq κ] (l : List κ) :
    l.dedup.length = l.length ↔ l.Nodup := by
  constructor
  · intro h
    have := (List.dedup_sublist l).eq_of_length h
    rw [← this]
    exact List.nodup_dedup l
  · intro h
    rw [List.Nodup.dedup h]

/-- C7 as amended: for every initial store and every readable source (a header and data
rows), after `RefreshData` returns successfully each table has as many rows as there are
distinct keys of that table (customer_id, product_id, order_id, the pair of order_id and
product_id) among the data rows that were not skipped; each count is therefore at most the
number of rows that were not skipped, and equal to it exactly when no two of those rows
share the key. -/
theorem C7_row_counts_are_distinct_keys (db : DB) (hdr : List String)
    (rows : List (List String))
    (hsucc : (RefreshData db (.records (hdr :: rows))).1 = .returned none) :
    let st := (RefreshData db (.records (hdr :: rows))).2.store
    let loaded := loadedRows (db.faults.drop 6) rows
    (st.customers.length = (loaded.map (fun rp => rp.1.CustomerID)).dedup.length
      ∧ st.products.length = (loaded.map (fun rp => rp.1.ProductID)).dedup.length
      ∧ st.orders.length = (loaded.map (fun rp => rp.1.OrderID)).dedup.length
      ∧ st.orderItems.length
          = (loaded.map (fun rp => (rp.1.OrderID, rp.1.ProductID))).dedup.length)
      ∧ (st.customers.length ≤ loaded.length ∧ st.products.length ≤ loaded.length
          ∧ st.orders.length ≤ loaded.length ∧ st.orderItems.length ≤ loaded.length)
      ∧ ((st.customers.length = loaded.length
            ↔ (loaded.map (fun rp => rp.1.CustomerID)).Nodup)
          ∧ (st.products.length = loaded.length
            ↔ (loaded.map (fun rp => rp.1.ProductID)).Nodup)
          ∧ (st.orders.length = loaded.length
            ↔ (loaded.map (fun rp => rp.1.OrderID)).Nodup)
          ∧ (st.orderItems.length = loaded.length
            ↔ (loaded.map (fun rp => (rp.1.OrderID, rp.1.ProductID))).Nodup)) := by
  intro st loaded
  have hnf := failsWithin_of_RefreshData_ok db _ hsucc
  have hst : st = loaded.foldl (fun s rp => applyRow s rp.1 rp.2) Store.empty := by
    show (RefreshData db (.records (hdr :: rows))).2.store = _
    rw [RefreshData_of_ok_db db _ hnf, LoadCSVData_records, loadLoop_store]
  have e1 : st.customers.length
      = (loaded.map (fun rp => rp.1.CustomerID)).dedup.length := by
    rw [hst, foldl_applyRow_customers]
    exact foldl_insertIfAbsent_length Customer.customer_id
      (fun rp : Record × Parsed => customerOf rp.1) loaded
  have e2 : st.products.length
      = (loaded.map (fun rp => rp.1.ProductID)).dedup.length := by
    rw [hst, foldl_applyRow_products]
    exact foldl_insertIfAbsent_length Product.product_id
      (fun rp : Record × Parsed => productOf rp.1 rp.2) loaded
  have e3 : st.orders.length
      = (loaded.map (fun rp => rp.1.OrderID)).dedup.length := by
    rw [hst, foldl_applyRow_orders]
    exact foldl_insertIfAbsent_length Order.order_id
      (fun rp : Record × Parsed => orderOf rp.1 rp.2) loaded
  have e4 : st.orderItems.length
      = (loaded.map (fun rp => (rp.1.OrderID, rp.1.ProductID))).dedup.length := by
    rw [hst, foldl_applyRow_orderItems]
    exact foldl_insertIfAbsent_length OrderItem.key
      (fun rp : Record × Parsed => orderItemOf rp.1 rp.2) loaded
  have len : ∀ {κ : Type} (g : Record × Parsed → κ), (loaded.map g).length = loaded.length :=
    fun g => List.length_map _ _
  refine ⟨⟨e1, e2, e3, e4⟩, ⟨?_, ?_, ?_, ?_⟩, ⟨?_, ?_, ?_, ?_⟩⟩
  · rw [e1]; exact dedup_length_le_of_map _ _
  · rw [e2]; exact dedup_length_le_of_map _ _
  · rw [e3]; exact dedup_length_le_of_map _ _
  · rw [e4]; exact dedup_length_le_of_map _ _
  · rw [e1, ← len (fun rp => rp.1.CustomerID)]; exact dedup_length_eq_iff _
  · rw [e2, ← len (fun rp => rp.1.ProductID)]; exact dedup_length_eq_iff _
  · rw [e3, ← len (fun rp => rp.1.OrderID)]; exact dedup_length_eq_iff _
  · rw [e4, ← len (fun rp => (rp.1.OrderID, rp.1.ProductID))]; exact dedup_length_eq_iff _

/-- The amended C7 at the source `rowO1`, `rowBadQuantity`, `rowO4` refreshed into a store
that holds the entities of `rowO3`: two rows are not skipped; one customer, two products, two
orders and two order items. -/
theorem C7_row_counts_are_distinct_keys_witness :
    (loadedRows [] [rowO1, rowBadQuantity, rowO4]).length = 2
      ∧ (RefreshData (LoadCSVData ⟨Store.empty, []⟩ (.records [sampleHeader, rowO3])).2
          (.records [sampleHeader, rowO1, rowBadQuantity, rowO4])).2.store.customers.length
        = ((loadedRows [] [rowO1, rowBadQuantity, rowO4]).map
            (fun rp => rp.1.CustomerID)).dedup.length
      ∧ ((loadedRows [] [rowO1, rowBadQuantity, rowO4]).map
            (fun rp => rp.1.CustomerID)).dedup.length = 1
      ∧ (RefreshData (LoadCSVData ⟨Store.empty, []⟩ (.records [sampleHeader, rowO3])).2
          (.records [sampleHeader, rowO1, rowBadQuantity, rowO4])).2.store.orders.length = 2 :=
  ⟨by decide,
    (C7_row_counts_are_distinct_keys
      (LoadCSVData ⟨Store.empty, []⟩ (.records [sampleHeader, rowO3])).2 sampleHeader
      [rowO1, rowBadQuantity, rowO4] (by decide)).1.1,
    by decide, by decide⟩

/-! ## C10: existing entities are never changed -/

theorem tableKeeps_refl {α κ : Type} (key : α → κ) (t : List α) : tableKeeps key t t :=
  ⟨[], by simp, by simp⟩

theorem tableKeeps_trans {α κ : Type} (key : α → κ) (t1 t2 t3 : List α)
    (h12 : tableKeeps key t1 t2) (h23 : tableKeeps key t2 t3) : tableKeeps key t1 t3 := by
  obtain ⟨a, rfl, ha⟩ := h12
  obtain ⟨b, rfl, hb⟩ := h23
  refine ⟨a ++ b, by simp, ?_⟩
  intro x hx y hy
  rcases List.mem_append.1 hx with hxa | hxb
  · exact ha x hxa y hy
  · exact hb x hxb y (List.mem_append_left _ hy)

theorem tableKeeps_insertIfAbsent {α κ : Type} [DecidableEq κ] (key : α → κ) (x : α)
    (t : List α) : tableKeeps key t (insertIfAbsent key x t) := by
  unfold insertIfAbsent
  by_cases h : (t.any fun y => decide (key y = key x)) = true
  · rw [if_pos h]; exact tableKeeps_refl key t
  · rw [if_neg h]
    refine ⟨[x], rfl, ?_⟩
    intro z hz y hy hyz
    rw [List.mem_singleton] at hz
    subst hz
    exact h (List.any_eq_true.2 ⟨y, hy, by simpa using hyz⟩)

theorem keptBy_refl (s : Store) : s.keptBy s :=
  ⟨tableKeeps_refl _ _, tableKeeps_refl _ _, tableKeeps_refl _ _, tableKeeps_refl _ _⟩

theorem keptBy_trans (s1 s2 s3 : Store) (h12 : s1.keptBy s2) (h23 : s2.keptBy s3) :
    s1.keptBy s3 :=
  ⟨tableKeeps_trans _ _ _ _ h12.1 h23.1, tableKeeps_trans _ _ _ _ h12.2.1 h23.2.1,
    tableKeeps_trans _ _ _ _ h12.2.2.1 h23.2.2.1, tableKeeps_trans _ _ _ _ h12.2.2.2 h23.2.2.2⟩

theorem keptBy_applyRow (s : Store) (r : Record) (p : Parsed) : s.keptBy (applyRow s r p) :=
  ⟨tableKeeps_insertIfAbsent _ _ _, tableKeeps_insertIfAbsent _ _ _,
    tableKeeps_insertIfAbsent _ _ _, tableKeeps_insertIfAbsent _ _ _⟩

theorem keptBy_insertRow (db : DB) (r : Record) (p : Parsed) :
    db.store.keptBy (insertRow db r p).store := by
  rcases insertRow_store db r p with h | h
  · rw [h]; exact keptBy_refl _
  · rw [h]; exact keptBy_applyRow _ _ _

theorem keptBy_loadLoop (i : Nat) (rs : List (List String)) (db : DB) :
    db.store.keptBy (loadLoop (i + 1) rs db).2.store := by
  induction rs generalizing i db with
  | nil => exact keptBy_refl _
  | cons row rest ih =>
    rcases hm : mkRecord row with _ | r
    · rw [loadLoop_cons_panic _ _ _ _ hm]; exact keptBy_refl _
    · rcases hp : parseRecord r with _ | p
      · rw [loadLoop_cons_skip _ _ _ _ r hm hp]; exact ih (i + 1) db
      · rw [loadLoop_cons_load _ _ _ _ r p hm hp]
        exact keptBy_trans _ _ _ (keptBy_insertRow db r p) (ih (i + 1) _)

theorem keptBy_LoadCSVData (db : DB) (csvFile : CsvFile) :
    db.store.keptBy (LoadCSVData db csvFile).2.store := by
  rcases csvFile with e | e | rs
  · exact keptBy_refl _
  · exact keptBy_refl _
  · rcases rs with _ | ⟨hdr, rows⟩
    · exact keptBy_refl _
    · rw [LoadCSVData_records]; exact keptBy_loadLoop 0 rows db

/-- What the loop leaves after some rows is kept by what it leaves after these rows and
further ones. -/
theorem keptBy_loadLoop_append (i : Nat) (rows1 rows2 : List (List String)) (db : DB) :
    (loadLoop (i + 1) rows1 db).2.store.keptBy (loadLoop (i + 1) (rows1 ++ rows2) db).2.store := by
  induction rows1 generalizing i db with
  | nil => exact keptBy_loadLoop i rows2 db
  | cons row rest ih =>
    rw [List.cons_append]
    rcases hm : mkRecord row with _ | r
    · rw [loadLoop_cons_panic _ _ _ _ hm, loadLoop_cons_panic _ _ _ _ hm]; exact keptBy_refl _
    · rcases hp : parseRecord r with _ | p
      · rw [loadLoop_cons_skip _ _ _ _ r hm hp, loadLoop_cons_skip _ _ _ _ r hm hp]
        exact ih (i + 1) db
      · rw [loadLoop_cons_load _ _ _ _ r p hm hp, loadLoop_cons_load _ _ _ _ r p hm hp]
        exact ih (i + 1) _

/-- C10: `LoadCSVData` never updates or deletes an entity. For every store, every script of
store failures and every source, each table after the call is the table before the call
followed by rows whose keys were not in the table; and the same holds between the store left
by the first rows of a batch and the store left by the whole batch, so that of two rows with
the same customer_id, product_id, order_id or (order_id, product_id) the one loaded first
keeps its attributes: `rowO1` followed by `rowO1Changed`, which has the same keys and other
attribute values, leaves exactly what `rowO1` alone leaves. -/
theorem C10_existing_entities_are_kept (db : DB) (csvFile : CsvFile) (hdr : List String)
    (rows1 rows2 : List (List String)) :
    db.store.keptBy (LoadCSVData db csvFile).2.store
      ∧ (LoadCSVData db (.records (hdr :: rows1))).2.store.keptBy
          (LoadCSVData db (.records (hdr :: (rows1 ++ rows2)))).2.store
      ∧ (LoadCSVData ⟨Store.empty, []⟩ (.records [sampleHeader, rowO1, rowO1Changed])).2.store
          = (LoadCSVData ⟨Store.empty, []⟩ (.records [sampleHeader, rowO1])).2.store := by
  refine ⟨keptBy_LoadCSVData db csvFile, ?_, by decide⟩
  rw [LoadCSVData_records, LoadCSVData_records]
  exact keptBy_loadLoop_append 0 rows1 rows2 db

/-! ## C1: rows that fail validation are skipped, the other rows are loaded -/

/-- A row of fifteen fields builds a record with the keys at fields 1, 2 and 3, and its bundle
exists exactly when its five fields parse. -/
theorem rowBundle_of_length (row : List String) (h : row.length = 15) :
    (rowBundle row).isSome = fieldsParse row
      ∧ ∀ rp, rowBundle row = some rp →
          rp.1.OrderID = row.getD 0 "" ∧ rp.1.ProductID = row.getD 1 ""
            ∧ rp.1.CustomerID = row.getD 2 "" := by
  match row, h with
  | [f0, f1, f2, f3, f4, f5, f6, f7, f8, f9, f10, f11, f12, f13, f14], _ =>
    constructor
    · simp only [rowBundle, mkRecord, parseRecord, fieldsParse, List.getD_cons_succ,
        List.getD_cons_zero]
      cases timeParse f6 <;> cases parseFloat f8 <;> cases parseFloat f10 <;>
        cases parseFloat f9 <;> cases atoi f7 <;> simp
    · intro rp hrp
      simp only [rowBundle, mkRecord] at hrp
      split at hrp
      · simp at hrp
      · simp only [Option.some.injEq] at hrp
        subst hrp
        simp

/-- When no store call fails and every row has fifteen fields, the rows that are not skipped
are the rows that pass validation. -/
theorem loadedRows_noFaults (rows : List (List String)) (fs : List (Option String))
    (h15 : ∀ row ∈ rows, row.length = 15) (hno : ∀ f ∈ fs, f = none) :
    loadedRows fs rows = rows.filterMap rowBundle := by
  induction rows generalizing fs with
  | nil => simp [loadedRows]
  | cons row rest ih =>
    obtain ⟨r, hm, _⟩ := mkRecord_of_length row (h15 row (List.mem_cons_self _ _))
    have h15r : ∀ x ∈ rest, x.length = 15 := fun x hx => h15 x (List.mem_cons_of_mem _ hx)
    have hnf := failsWithin_of_noFaults 6 fs hno
    rcases hp : parseRecord r with _ | p
    · have hb : rowBundle row = none := by simp [rowBundle, hm, hp]
      rw [List.filterMap_cons_none hb]
      simp only [loadedRows, hm, hp]
      exact ih fs h15r hno
    · have hb : rowBundle row = some (r, p) := by simp [rowBundle, hm, hp]
      rw [List.filterMap_cons_some hb]
      simp only [loadedRows, hm, hp, hnf, Bool.false_eq_true, if_false]
      rw [afterCalls_of_not_fails 6 fs hnf, ih (fs.drop 6) h15r (noFaults_drop 6 fs hno)]

/-- The keys of a table after a list of rows was inserted with insert-if-absent. -/
theorem mem_keys_foldl_insertIfAbsent {α β κ : Type} [DecidableEq κ] (key : α → κ) (f : β → α)
    (L : List β) (t : List α) (k : κ) :
    k ∈ (L.foldl (fun t b => insertIfAbsent key (f b) t) t).map key
      ↔ k ∈ t.map key ∨ k ∈ L.map (fun b => key (f b)) := by
  induction L generalizing t with
  | nil => simp
  | cons b L ih =>
    simp only [List.foldl_cons]
    rw [ih (insertIfAbsent key (f b) t), mem_keys_insertIfAbsent]
    simp only [List.map_cons, List.mem_cons]
    tauto

/-- The keys of the four entities of every row applied to a store are in the store. -/
theorem keys_mem_foldl_applyRow (L : List (Record × Parsed)) (s : Store)
    (rp : Record × Parsed) (h : rp ∈ L) :
    rp.1.CustomerID ∈ (L.foldl (fun s rp => applyRow s rp.1 rp.2) s).customers.map
        Customer.customer_id
      ∧ rp.1.ProductID ∈ (L.foldl (fun s rp => applyRow s rp.1 rp.2) s).products.map
        Product.product_id
      ∧ rp.1.OrderID ∈ (L.foldl (fun s rp => applyRow s rp.1 rp.2) s).orders.map
        Order.order_id
      ∧ (rp.1.OrderID, rp.1.ProductID)
        ∈ (L.foldl (fun s rp => applyRow s rp.1 rp.2) s).orderItems.map OrderItem.key := by
  refine ⟨?_, ?_, ?_, ?_⟩
  · rw [foldl_applyRow_customers, mem_keys_foldl_insertIfAbsent]
    exact Or.inr (List.mem_map.2 ⟨rp, h, rfl⟩)
  · rw [foldl_applyRow_products, mem_keys_foldl_insertIfAbsent]
    exact Or.inr (List.mem_map.2 ⟨rp, h, rfl⟩)
  · rw [foldl_applyRow_orders, mem_keys_foldl_insertIfAbsent]
    exact Or.inr (List.mem_map.2 ⟨rp, h, rfl⟩)
  · rw [foldl_applyRow_orderItems, mem_keys_foldl_insertIfAbsent]
    exact Or.inr (List.mem_map.2 ⟨rp, h, rfl⟩)

/-- C1: for every store (with any script of store failures) and every list of records made
of a header and data rows of 15 fields each, `LoadCSVData` leaves exactly what it leaves on
the same records without the data rows whose date, unit price, shipping cost, discount or
quantity field does not parse, and returns no error; a single such row leaves the store
handle as it was. Every other row still loads: when no store call fails, the store after the
call is the store before it with the four inserts (customer, product, order, order item,
each insert-if-absent) of every row whose five fields parse applied in file order, so that
the customer_id (field 3), product_id (field 2), order_id (field 1) and the pair of order_id
and product_id of every such row are keys of the tables customers, products, orders and
order_items after the call. -/
theorem C1_invalid_rows_are_skipped (db : DB) (hdr : List String) (rows : List (List String))
    (h15 : ∀ row ∈ rows, row.length = 15) :
    LoadCSVData db (.records (hdr :: rows))
        = LoadCSVData db (.records (hdr :: rows.filter fieldsParse))
      ∧ (LoadCSVData db (.records (hdr :: rows))).1 = .returned none
      ∧ (∀ row ∈ rows, fieldsParse row = false →
          LoadCSVData db (.records [hdr, row]) = (.returned none, db))
      ∧ ((∀ f ∈ db.faults, f = none) →
          (LoadCSVData db (.records (hdr :: rows))).2.store
              = (rows.filterMap rowBundle).foldl (fun s rp => applyRow s rp.1 rp.2) db.store
            ∧ ∀ row ∈ rows, fieldsParse row = true →
                (rowBundle row).isSome = true
                  ∧ row.getD 2 "" ∈ (LoadCSVData db (.records (hdr :: rows))).2.store.customers.map
                      Customer.customer_id
                  ∧ row.getD 1 "" ∈ (LoadCSVData db (.records (hdr :: rows))).2.store.products.map
                      Product.product_id
                  ∧ row.getD 0 "" ∈ (LoadCSVData db (.records (hdr :: rows))).2.store.orders.map
                      Order.order_id
                  ∧ (row.getD 0 "", row.getD 1 "")
                      ∈ (LoadCSVData db (.records (hdr :: rows))).2.store.orderItems.map
                          OrderItem.key) := by
  refine ⟨?_, ?_, ?_, ?_⟩
  · rw [LoadCSVData_records, LoadCSVData_records]
    exact (loadLoop_filter rows db h15).1
  · rw [LoadCSVData_records]
    exact (loadLoop_filter rows db h15).2
  · intro row hrow hf
    have h := (loadLoop_filter [row] db (by simpa using h15 row hrow)).1
    rw [LoadCSVData_records, h]
    simp [hf, loadLoop]
  · intro hno
    have hst : (LoadCSVData db (.records (hdr :: rows))).2.store
        = (rows.filterMap rowBundle).foldl (fun s rp => applyRow s rp.1 rp.2) db.store := by
      rw [LoadCSVData_records, loadLoop_store, loadedRows_noFaults rows db.faults h15 hno]
    refine ⟨hst, ?_⟩
    intro row hrow hf
    obtain ⟨hsome, hkeys⟩ := rowBundle_of_length row (h15 row hrow)
    rw [hf] at hsome
    obtain ⟨rp, hrp⟩ := Option.isSome_iff_exists.1 hsome
    obtain ⟨hO, hP, hC⟩ := hkeys rp hrp
    have hmem : rp ∈ rows.filterMap rowBundle := List.mem_filterMap.2 ⟨row, hrow, hrp⟩
    have hk := keys_mem_foldl_applyRow (rows.filterMap rowBundle) db.store rp hmem
    rw [hst, ← hO, ← hP, ← hC]
    exact ⟨hsome, hk⟩

/-- C1 at the batch `rowO1`, `rowBadQuantity` (quantity `abc`), `rowO3` loaded into the empty
store: the outcome is that of the batch `rowO1`, `rowO3`, and the store holds the customer,
product, order and order item of `rowO1` and of `rowO3` and nothing of `rowBadQuantity`. -/
theorem C1_invalid_rows_are_skipped_witness :
    (∀ row ∈ [rowO1, rowBadQuantity, rowO3], row.length = 15)
      ∧ [rowO1, rowBadQuantity, rowO3].filter fieldsParse = [rowO1, rowO3]
      ∧ LoadCSVData ⟨Store.empty, []⟩ (.records [sampleHeader, rowO1, rowBadQuantity, rowO3])
          = LoadCSVData ⟨Store.empty, []⟩ (.records [sampleHeader, rowO1, rowO3])
      ∧ LoadCSVData ⟨Store.empty, []⟩ (.records [sampleHeader, rowO1, rowBadQuantity, rowO3])
          = (.returned none,
              ⟨{ customers := [⟨"C1", "Alice", "a@x.com", "1 Main St", "West"⟩,
                               ⟨"C3", "Carol", "c@x.com", "3 High St", "North"⟩],
                 products := [⟨"P1", "Widget", "Tools", .dec false 999 (-2)⟩,
                              ⟨"P3", "Gizmo", "Toys", .dec false 450 (-2)⟩],
                 orders := [⟨"O1", "C1", ⟨2024, 1, 5⟩, "card", .dec false 250 (-2),
                              .dec false 100 (-2)⟩,
                            ⟨"O3", "C3", ⟨2024, 2, 29⟩, "card", .dec false 0 0,
                              .dec false 50 (-2)⟩],
                 orderItems := [⟨"O1", "P1", 3, .dec false 999 (-2), .dec false 100 (-2)⟩,
                                ⟨"O3", "P3", 2, .dec false 450 (-2), .dec false 50 (-2)⟩] },
               []⟩)
      ∧ "C3" ∈ (LoadCSVData ⟨Store.empty, []⟩
          (.records [sampleHeader, rowO1, rowBadQuantity, rowO3])).2.store.customers.map
            Customer.customer_id :=
  ⟨by decide, by decide,
    by
      have h := (C1_invalid_rows_are_skipped ⟨Store.empty, []⟩ sampleHeader
        [rowO1, rowBadQuantity, rowO3] (by decide)).1
      have hf : [rowO1, rowBadQuantity, rowO3].filter fieldsParse = [rowO1, rowO3] := by decide
      rw [hf] at h
      exact h,
    by decide,
    ((C1_invalid_rows_are_skipped ⟨Store.empty, []⟩ sampleHeader
        [rowO1, rowBadQuantity, rowO3] (by decide)).2.2.2 (by simp)).2
      rowO3 (by simp) (by decide) |>.2.1⟩

end SaleData
